import Mathlib

/-!
Verification of the stratum mining server with merge-mining support
(stratum.cpp of tradecraftio/mergemine) against its natural-language
specification.  The C++ source is shallowly embedded: bytes are Nat
(values < 256), 256-bit hashes and identifiers are 32-byte lists
(List Nat, matching the uint256 byte-blob representation), machine
integers are Nat with explicit masking where overflow matters, maps
(std::map) are association lists in iteration order, and code that
throws returns Except.  External collaborators (consensus validation,
merkle-tree helpers, the merge-mine client, the block assembler) are
fields of an explicit environment record, as the spec declares them
out of scope with narrow contracts.
-/

namespace Mergemine

/-- Little-endian serialization of a 32-bit word (Bitcoin wire format). -/
def serU32 (n : Nat) : List Nat :=
  [n % 256, (n >>> 8) % 256, (n >>> 16) % 256, (n >>> 24) % 256]

/-- Little-endian serialization of a 64-bit word (Bitcoin wire format). -/
def serU64 (n : Nat) : List Nat :=
  [n % 256, (n >>> 8) % 256, (n >>> 16) % 256, (n >>> 24) % 256,
   (n >>> 32) % 256, (n >>> 40) % 256, (n >>> 48) % 256, (n >>> 56) % 256]

/-- Bitcoin CompactSize encoding of an unsigned integer. -/
def serCompactSize (n : Nat) : List Nat :=
  if n < 253 then [n]
  else if n < 65536 then 253 :: [n % 256, (n >>> 8) % 256]
  else if n < 4294967296 then 254 :: serU32 n
  else 255 :: serU64 n

/-- Lower-case hex digit for a value below 16 (HexStr helper). -/
def hexDigitChar (n : Nat) : Char :=
  if n < 10 then Char.ofNat (48 + n) else Char.ofNat (87 + n)

/-- HexStr: lower-case hex encoding of a byte sequence. -/
def hexStr (bs : List Nat) : String :=
  String.mk (bs.foldr
    (fun b acc => hexDigitChar ((b >>> 4) % 16) :: hexDigitChar (b % 16) :: acc) [])

/-- Value of a single hex digit character, none when not a hex digit
(HexDigit from utilstrencodings). -/
def hexDigitVal (c : Char) : Option Nat :=
  if 48 ≤ c.toNat ∧ c.toNat ≤ 57 then some (c.toNat - 48)
  else if 97 ≤ c.toNat ∧ c.toNat ≤ 102 then some (c.toNat - 87)
  else if 65 ≤ c.toNat ∧ c.toNat ≤ 70 then some (c.toNat - 55)
  else none

/-- ParseHex: scans the string, skipping whitespace, converting hex-digit
pairs to bytes, and stopping at the first character that is not a hex
digit (the lenient parser from utilstrencodings). -/
def parseHexLoop : List Char → List Nat
  | [] => []
  | c :: rest =>
    if c.isWhitespace then parseHexLoop rest
    else match hexDigitVal c with
      | none => []
      | some hi => match rest with
        | [] => []
        | c2 :: rest2 => match hexDigitVal c2 with
          | none => []
          | some lo => (hi * 16 + lo) :: parseHexLoop rest2

/-- IsHex from utilstrencodings: nonempty, even length, all hex digits. -/
def isHexStr (s : String) : Bool :=
  decide (s.data ≠ []) && decide (s.data.length % 2 = 0)
    && s.data.all (fun c => (hexDigitVal c).isSome)

/-- Byte-swap each 32-bit chunk of a byte sequence (the stratum
presentation quirk applied to hashPrevBlock). -/
def bswapChunks : List Nat → List Nat
  | a :: b :: c :: d :: rest => d :: c :: b :: a :: bswapChunks rest
  | l => l

/-! ## SHA-256 (concrete model of the external CSHA256 class)

The stratum server derives per-session extranonces and second-stage
coinbase hashes with CSHA256.  The compression function below is the
standard FIPS 180-4 SHA-256 over Nat words masked to 32 bits. -/

/-- Right rotation of a 32-bit word. -/
def rotr32 (n x : Nat) : Nat := ((x >>> n) ||| (x <<< (32 - n))) &&& 0xffffffff

/-- Addition modulo 2^32. -/
def add32 (a b : Nat) : Nat := (a + b) % 4294967296

/-- SHA-256 choose function. -/
def sha256Ch (x y z : Nat) : Nat := (x &&& y) ^^^ ((x ^^^ 0xffffffff) &&& z)

/-- SHA-256 majority function. -/
def sha256Maj (x y z : Nat) : Nat := (x &&& y) ^^^ (x &&& z) ^^^ (y &&& z)

/-- SHA-256 big sigma 0. -/
def bigSigma0 (x : Nat) : Nat := rotr32 2 x ^^^ rotr32 13 x ^^^ rotr32 22 x

/-- SHA-256 big sigma 1. -/
def bigSigma1 (x : Nat) : Nat := rotr32 6 x ^^^ rotr32 11 x ^^^ rotr32 25 x

/-- SHA-256 small sigma 0. -/
def smallSigma0 (x : Nat) : Nat := rotr32 7 x ^^^ rotr32 18 x ^^^ (x >>> 3)

/-- SHA-256 small sigma 1. -/
def smallSigma1 (x : Nat) : Nat := rotr32 17 x ^^^ rotr32 19 x ^^^ (x >>> 10)

/-- The 64 SHA-256 round constants. -/
def sha256K : List Nat :=
  [1116352408, 1899447441, 3049323471, 3921009573, 961987163,
   1508970993, 2453635748, 2870763221, 3624381080, 310598401,
   607225278, 1426881987, 1925078388, 2162078206, 2614888103,
   3248222580, 3835390401, 4022224774, 264347078, 604807628,
   770255983, 1249150122, 1555081692, 1996064986, 2554220882,
   2821834349, 2952996808, 3210313671, 3336571891, 3584528711,
   113926993, 338241895, 666307205, 773529912, 1294757372,
   1396182291, 1695183700, 1986661051, 2177026350, 2456956037,
   2730485921, 2820302411, 3259730800, 3345764771, 3516065817,
   3600352804, 4094571909, 275423344, 430227734, 506948616,
   659060556, 883997877, 958139571, 1322822218, 1537002063,
   1747873779, 1955562222, 2024104815, 2227730452, 2361852424,
   2428436474, 2756734187, 3204031479, 3329325298]

/-- The eight SHA-256 working words. -/
structure H8 where
  a : Nat
  b : Nat
  c : Nat
  d : Nat
  e : Nat
  f : Nat
  g : Nat
  h : Nat
  deriving Repr, DecidableEq

/-- Initial SHA-256 state. -/
def sha256InitH : H8 :=
  ⟨1779033703, 3144134277, 1013904242, 2773480762,
   1359893119, 2600822924, 528734635, 1541459225⟩

/-- One SHA-256 round. -/
def sha256Round (s : H8) (k w : Nat) : H8 :=
  let t1 := add32 s.h (add32 (bigSigma1 s.e) (add32 (sha256Ch s.e s.f s.g) (add32 k w)))
  let t2 := add32 (bigSigma0 s.a) (sha256Maj s.a s.b s.c)
  ⟨add32 t1 t2, s.a, s.b, s.c, add32 s.d t1, s.e, s.f, s.g⟩

/-- Iterate a function n times. -/
def iterN {α : Type} : Nat → (α → α) → α → α
  | 0, _, a => a
  | n + 1, f, a => iterN n f (f a)

/-- Extend the message schedule by one word. -/
def scheduleStep (ws : List Nat) : List Nat :=
  ws ++ [add32 (add32 (smallSigma1 (ws.getD (ws.length - 2) 0)) (ws.getD (ws.length - 7) 0))
              (add32 (smallSigma0 (ws.getD (ws.length - 15) 0)) (ws.getD (ws.length - 16) 0))]

/-- SHA-256 compression of one 16-word block into the running state. -/
def sha256Compress (st : H8) (block : List Nat) : H8 :=
  let w := iterN 48 scheduleStep block
  let s := (sha256K.zip w).foldl (fun s p => sha256Round s p.1 p.2) st
  ⟨add32 st.a s.a, add32 st.b s.b, add32 st.c s.c, add32 st.d s.d,
   add32 st.e s.e, add32 st.f s.f, add32 st.g s.g, add32 st.h s.h⟩

/-- Pack bytes into big-endian 32-bit words. -/
def bytesToWordsBE : List Nat → List Nat
  | a :: b :: c :: d :: rest =>
    (((a &&& 255) <<< 24) ||| ((b &&& 255) <<< 16) ||| ((c &&& 255) <<< 8) ||| (d &&& 255))
      :: bytesToWordsBE rest
  | _ => []

/-- Big-endian serialization of a 64-bit length. -/
def serBE64 (n : Nat) : List Nat :=
  [(n >>> 56) &&& 255, (n >>> 48) &&& 255, (n >>> 40) &&& 255, (n >>> 32) &&& 255,
   (n >>> 24) &&& 255, (n >>> 16) &&& 255, (n >>> 8) &&& 255, n &&& 255]

/-- Split a word list into 16-word blocks. -/
def toBlocks (l : List Nat) : List (List Nat) :=
  if h : l = [] then [] else l.take 16 :: toBlocks (l.drop 16)
termination_by l.length
decreasing_by
  simp only [List.length_drop]
  have : 0 < l.length := List.length_pos.mpr h
  omega

/-- Big-endian bytes of a 32-bit word. -/
def wordBE (w : Nat) : List Nat :=
  [(w >>> 24) &&& 255, (w >>> 16) &&& 255, (w >>> 8) &&& 255, w &&& 255]

/-- SHA-256 of a byte sequence (FIPS 180-4 padding then compression). -/
def sha256 (msg : List Nat) : List Nat :=
  let padded := msg ++ [0x80] ++ List.replicate ((119 - msg.length % 64) % 64) 0
                    ++ serBE64 (8 * msg.length)
  let final := (toBlocks (bytesToWordsBE padded)).foldl sha256Compress sha256InitH
  wordBE final.a ++ wordBE final.b ++ wordBE final.c ++ wordBE final.d
    ++ wordBE final.e ++ wordBE final.f ++ wordBE final.g ++ wordBE final.h

/-- Double SHA-256 (the CHash256 block / transaction hash). -/
def sha256d (msg : List Nat) : List Nat := sha256 (sha256 msg)

/-! ## JSON values, JSON-RPC errors and parameter parsing -/

/-- UniValue, restricted to the shapes the stratum handlers inspect. -/
inductive JVal where
  | null
  | bool (b : Bool)
  | num (n : Int)
  | str (s : String)
  | arr (items : List JVal)

/-- The JSON-RPC error codes the stratum server uses. -/
def RPC_INVALID_REQUEST : Int := -32600

def RPC_METHOD_NOT_FOUND : Int := -32601

def RPC_INVALID_PARAMETER : Int := -8

def RPC_INTERNAL_ERROR : Int := -32603

def RPC_PARSE_ERROR : Int := -32700

def RPC_OUT_OF_MEMORY : Int := -7

def RPC_CLIENT_NOT_CONNECTED : Int := -9

def RPC_CLIENT_IN_INITIAL_DOWNLOAD : Int := -10

/-- The argument payloads of the std::runtime_error throw sites in the
stratum source, one constructor per site. -/
inductive RuntimeMsg where
  | notAString
  | notHexString (name : String)
  | wrong256Len (name : String)
  | serializedTooSmall
  | extranonceFieldMissing
  | noTransactions
  | badInputCount
  | combinedNonceLength (n1 n2 : Nat)
  | missingCoinbaseInput
  | missingOutputs
  | auxTooMany
  deriving Repr, DecidableEq

/-- An exception thrown by a stratum handler: either a JSONRPCError
UniValue object (code and message) or a std::runtime_error. -/
inductive StratumError where
  | jsonrpc (code : Int) (msg : String)
  | runtime (m : RuntimeMsg)
  deriving Repr, DecidableEq

/-- The catch chain of stratum_read_cb: a JSONRPCError object keeps its
code, any other std::exception is reported as an internal error. -/
def errorCodeOf : StratumError → Int
  | .jsonrpc code _ => code
  | .runtime _ => RPC_INTERNAL_ERROR

/-- UniValue array indexing: out-of-range yields the null value. -/
def uniAt (params : List JVal) (i : Nat) : JVal := (params.get? i).getD .null

/-- UniValue get_str: throws std::runtime_error on a non-string. -/
def getStr : JVal → Except StratumError String
  | .str s => .ok s
  | _ => .error (.runtime .notAString)

/-- ParseHexV: requires a string that passes IsHex, else Invalid params. -/
def ParseHexV (v : JVal) (name : String) : Except StratumError (List Nat) :=
  let strHex := match v with | .str s => s | _ => ""
  if isHexStr strHex then .ok (parseHexLoop strHex.data)
  else .error (.jsonrpc RPC_INVALID_PARAMETER (name ++ " must be hexadecimal string"))

/-- ParseHexInt4: exactly 4 bytes of hex, decoded big-endian. -/
def ParseHexInt4 (v : JVal) (name : String) : Except StratumError Nat :=
  match ParseHexV v name with
  | .error e => .error e
  | .ok vch =>
    if vch.length ≠ 4 then
      .error (.jsonrpc RPC_INVALID_PARAMETER (name ++ " must be exactly 4 bytes / 8 hex"))
    else .ok ((vch.getD 0 0 <<< 24) ||| (vch.getD 1 0 <<< 16) ||| (vch.getD 2 0 <<< 8) ||| vch.getD 3 0)

/-- HexInt4: 4-byte big-endian hex rendering of a 32-bit value. -/
def HexInt4 (val : Nat) : String :=
  hexStr [(val >>> 24) &&& 255, (val >>> 16) &&& 255, (val >>> 8) &&& 255, val &&& 255]

/-- ParseUInt256: a string parsing (leniently) to exactly 32 bytes;
throws std::runtime_error otherwise.  The resulting uint256 is the raw
byte sequence. -/
def ParseUInt256 (v : JVal) (name : String) : Except StratumError (List Nat) :=
  match v with
  | .str s =>
    let vch := parseHexLoop s.data
    if vch.length ≠ 32 then .error (.runtime (.wrong256Len name))
    else .ok vch
  | _ => .error (.runtime (.notHexString name))

/-- The zero uint256. -/
def zero32 : List Nat := List.replicate 32 0

/-- BoundParams: enforce the per-method parameter-count window. -/
def BoundParams (method : String) (params : List JVal) (mn mx : Nat) :
    Except StratumError Unit :=
  if params.length < mn then
    .error (.jsonrpc RPC_INVALID_PARAMETER (method ++ " expects more parameters"))
  else if mx < params.length then
    .error (.jsonrpc RPC_INVALID_PARAMETER (method ++ " receives no more parameters"))
  else .ok ()

/-! ## Primitive data structures (transactions, blocks, templates) -/

/-- A transaction input (CTxIn): previous outpoint, scriptSig, sequence. -/
structure CTxIn where
  prevoutHash : List Nat
  prevoutN : Nat
  scriptSig : List Nat
  nSequence : Nat
  deriving Repr, DecidableEq

/-- A transaction output (CTxOut). -/
structure CTxOut where
  nValue : Nat
  scriptPubKey : List Nat
  deriving Repr, DecidableEq

/-- A mutable transaction (CMutableTransaction). -/
structure CMutableTransaction where
  nVersion : Nat
  vin : List CTxIn
  vout : List CTxOut
  nLockTime : Nat
  deriving Repr, DecidableEq

/-- Fallback transaction value (never produced by the real flows). -/
def defaultTx : CMutableTransaction := ⟨0, [], [], 0⟩

/-- Modelled from the spec: serialization of a transaction without
witness data (the SERIALIZE_TRANSACTION_NO_WITNESS CDataStream format;
the primitives/transaction serializer itself is not among the staged
sources).  Per the spec, the layout is nVersion (4 bytes LE), the
CompactSize input count, each input as outpoint hash (32) + index (4) +
CompactSize scriptSig length + scriptSig + sequence (4), the CompactSize
output count, each output as value (8 LE) + CompactSize script length +
script, then nLockTime (4 LE); the extranonce field then ends at offset
4 + 1 + 32 + 4 + 1 + pushlen. -/
def serTxIn (i : CTxIn) : List Nat :=
  i.prevoutHash ++ serU32 i.prevoutN ++ serCompactSize i.scriptSig.length
    ++ i.scriptSig ++ serU32 i.nSequence

/-- Serialization of one output. -/
def serTxOut (o : CTxOut) : List Nat :=
  serU64 o.nValue ++ serCompactSize o.scriptPubKey.length ++ o.scriptPubKey

/-- Serialization of a whole transaction without witness data. -/
def SerializeTransactionNoWitness (tx : CMutableTransaction) : List Nat :=
  serU32 tx.nVersion ++ serCompactSize tx.vin.length
    ++ (tx.vin.map serTxIn).flatten
    ++ serCompactSize tx.vout.length ++ (tx.vout.map serTxOut).flatten
    ++ serU32 tx.nLockTime

/-- CTransaction GetHash: double SHA-256 of the no-witness serialization. -/
def TxGetHash (tx : CMutableTransaction) : List Nat :=
  sha256d (SerializeTransactionNoWitness tx)

/-- A block header (CBlockHeader). -/
structure CBlockHeader where
  nVersion : Nat
  hashPrevBlock : List Nat
  hashMerkleRoot : List Nat
  nTime : Nat
  nBits : Nat
  nNonce : Nat
  deriving Repr, DecidableEq

/-- A full block (CBlock): header fields plus the transaction list. -/
structure CBlock where
  nVersion : Nat
  hashPrevBlock : List Nat
  hashMerkleRoot : List Nat
  nTime : Nat
  nBits : Nat
  nNonce : Nat
  vtx : List CMutableTransaction
  deriving Repr, DecidableEq

/-- The header carried by a block. -/
def headerOfBlock (b : CBlock) : CBlockHeader :=
  ⟨b.nVersion, b.hashPrevBlock, b.hashMerkleRoot, b.nTime, b.nBits, b.nNonce⟩

/-- A block template from the external BlockAssembler (CBlockTemplate):
the candidate block and whether its last transaction is a block-final
transaction able to carry merge-mining commitments. -/
structure CBlockTemplate where
  block : CBlock
  has_block_final_tx : Bool
  deriving Repr, DecidableEq

/-! ## Script construction (CScript shift operators) -/

/-- Little-endian base-256 digits of a natural number (empty for zero). -/
def natLEBytes (n : Nat) : List Nat :=
  if h : n = 0 then [] else n % 256 :: natLEBytes (n / 256)
termination_by n
decreasing_by
  exact Nat.div_lt_self (Nat.pos_of_ne_zero h) (by omega)

/-- CScriptNum serialization of a non-negative integer (heights pushed
into the coinbase are non-negative): little-endian base-256 digits of
the value, with a zero byte appended when the most significant digit
has its top bit set (so the number does not read as negative). -/
def scriptNumEncode (n : Nat) : List Nat :=
  let b := natLEBytes n
  if b = [] then [] else if 128 ≤ b.getLastD 0 then b ++ [0] else b

/-- CScript operator shift with a data vector: sizes below OP_PUSHDATA1
are pushed with a single length byte, then the PUSHDATA forms. -/
def scriptPushData (v : List Nat) : List Nat :=
  if v.length < 0x4c then v.length :: v
  else if v.length ≤ 0xff then 0x4c :: v.length :: v
  else if v.length ≤ 0xffff then 0x4d :: (v.length % 256) :: (v.length >>> 8) :: v
  else 0x4e :: serU32 v.length ++ v

/-- CScript operator shift with an int64 value: -1 and 1..16 become a
single opcode byte, anything else pushes the CScriptNum serialization
(heights in this server are non-negative). -/
def scriptPushInt (n : Int) : List Nat :=
  if 1 ≤ n ∧ n ≤ 16 then [(0x50 + n.toNat)]
  else scriptPushData (scriptNumEncode n.toNat)

/-- The placeholder scriptPubKey OP_FALSE produced by CScript() << OP_FALSE. -/
def opFalseScript : List Nat := [0x00]

/-! ## Session and work-unit state -/

/-- Auxiliary work received from an upstream merge-mined chain. -/
structure AuxWork where
  commit : List Nat
  bits : Nat
  bias : Nat
  deriving Repr, DecidableEq

/-- Second-stage work received from an upstream auxiliary endpoint. -/
structure SecondStageWork where
  job_id : String
  hashPrevBlock : List Nat
  cb1 : List Nat
  cb2 : List Nat
  cb_branch : List (List Nat)
  nVersion : Nat
  nBits : Nat
  nTime : Nat
  diff : Rat
  deriving Repr, DecidableEq

/-- The midstate-compressed proof handed to auxiliary chains on a share. -/
structure AuxProof where
  midstate_hash : List Nat
  midstate_buffer : List Nat
  midstate_length : Nat
  lock_time : Nat
  aux_branch : List (List Nat)
  num_txns : Nat
  nVersion : Nat
  hashPrevBlock : List Nat
  nTime : Nat
  nBits : Nat
  nNonce : Nat
  deriving Repr, DecidableEq

/-- The proof handed to the upstream endpoint on a second-stage share. -/
structure SecondStageProof where
  extranonce1 : List Nat
  extranonce2 : List Nat
  nVersion : Nat
  nTime : Nat
  nNonce : Nat
  deriving Repr, DecidableEq

/-- Per-connection session state (StratumClient).  Chain tips are
abstract identities (Nat, 0 meaning the null pointer); the payout
address is kept as its string form. -/
structure StratumClient where
  m_nextid : Nat
  m_secret : List Nat
  m_client : String
  m_authorized : Bool
  m_addr : String
  m_mmauth : List (List Nat × String × String)
  m_mmwork : List (List Nat × Nat × List (List Nat × AuxWork))
  m_mindiff : Rat
  m_version_rolling_mask : Nat
  m_last_tip : Nat
  m_last_second_stage : Option (List Nat × List Nat)
  m_send_work : Bool
  m_supports_extranonce : Bool
  deriving Repr, DecidableEq

/-- A cached work template (StratumWork): the snapshot of a block
template, its cached coinbase branch, segwit flag and height. -/
structure StratumWork where
  m_prev_block_index : Nat
  block : CBlock
  has_block_final_tx : Bool
  m_cb_branch : List (List Nat)
  m_is_witness_enabled : Bool
  m_height : Int
  deriving Repr, DecidableEq

/-- Fallback work value (std::map operator square-bracket default). -/
def defaultWork : StratumWork :=
  ⟨0, ⟨0, zero32, zero32, 0, 0, 0, []⟩, false, [], false, 0⟩

/-- Association-list lookup (std::map find / count). -/
def lookupKey {α β : Type} [DecidableEq α] : List (α × β) → α → Option β
  | [], _ => none
  | (k0, v) :: rest, k => if k0 = k then some v else lookupKey rest k

/-- Association-list insert-or-assign (std::map operator square-bracket
followed by assignment); preserves the position of an existing key. -/
def insertKey {α β : Type} [DecidableEq α] : List (α × β) → α → β → List (α × β)
  | [], k, v => [(k, v)]
  | (k0, v0) :: rest, k, v =>
    if k0 = k then (k, v) :: rest else (k0, v0) :: insertKey rest k v

/-- The process-wide stratum server state: the work-template cache, the
second-stage cache, and the static locals of GetWorkUnit (current tip,
current job, mempool counter, last rebuild time). -/
structure ServerState where
  work_templates : List (List Nat × StratumWork)
  second_stages : List (String × (List Nat × SecondStageWork))
  tip : Nat
  job_id : List Nat
  transactions_updated_last : Nat
  last_update_time : Nat
  deriving Repr, DecidableEq

/-- The external collaborators of the stratum server, with the ambient
chain state read under the chain lock.  Each field models one of the
out-of-scope functions the spec lists as external contracts. -/
structure ExternalEnv where
  vNodesEmpty : Bool
  mineBlocksOnDemand : Bool
  isInitialBlockDownload : Bool
  chainTip : Nat
  tipHeight : Int
  isWitnessEnabled : Bool
  now : Nat
  nowMillis : Nat
  mempoolUpdated : Nat
  createNewBlock : Option CBlockTemplate
  GetSecondStageWork : Option (List Nat) → Option (List Nat × SecondStageWork)
  GetMergeMineWork : List (List Nat × String × String) → List (List Nat × AuxWork)
  UpdateBlockFinalTransaction : CMutableTransaction → List Nat → CMutableTransaction × Bool
  GetWitnessCommitmentIndex : CBlock → Option Nat
  GenerateCoinbaseCommitment : CBlock → Nat → CBlock
  BlockMerkleBranch : CBlock → Nat → List (List Nat)
  BlockMerkleRoot : CBlock → List Nat
  ComputeMerkleRootFromBranch : List Nat → List (List Nat) → Nat → List Nat
  ComputeMerkleMapRootFromBranch : List Nat → List (List Nat) → List Nat → List Nat
  ComputeStableMerkleBranch : List (List Nat) → Nat → List (List Nat) × List Nat
  CheckProofOfWork : List Nat → Nat → Nat → Bool
  ProcessNewBlock : CBlock → Bool
  GetDifficulty : Nat → Rat
  GetScriptForDestination : String → List Nat
  UpdateTime : CBlockHeader → CBlockHeader
  serializeTxProtocol : CMutableTransaction → List Nat
  sha256Midstate : List Nat → List Nat × List Nat × Nat

/-! ## Extranonce derivation, difficulty clamping, merge-mining root -/

/-- StratumClient ExtraNonce1: write the 32-byte session secret into a
CSHA256 hasher, write the job identifier as well when the session has
subscribed to extranonce updates, finalize, and keep the first 8 bytes
of the digest. -/
def ExtraNonce1 (client : StratumClient) (job_id : List Nat) : List Nat :=
  let written := client.m_secret ++ (if client.m_supports_extranonce then job_id else [])
  let job_nonce := sha256 written
  job_nonce.take 8

/-- ClampDifficulty: override the computed difficulty with the client
minimum when that is positive, then clamp from below by 0.001.  The C++
computation is on doubles; only comparisons and max are involved, which
agree with exact rational arithmetic on the represented values, so the
model uses Rat. -/
def ClampDifficulty (client : StratumClient) (diff0 : Rat) : Rat :=
  let diff := if client.m_mindiff > 0 then client.m_mindiff else diff0
  max diff (1 / 1000)

/-- AuxWorkMerkleRoot: the zero hash for an empty commitment map, a
thrown std::runtime_error for more than one commitment, and the
single-entry merkle-map root otherwise. -/
def AuxWorkMerkleRoot (env : ExternalEnv) (mmwork : List (List Nat × AuxWork)) :
    Except StratumError (List Nat) :=
  if mmwork.isEmpty then .ok zero32
  else if mmwork.length ≠ 1 then .error (.runtime .auxTooMany)
  else match mmwork with
    | (key, aw) :: _ => .ok (env.ComputeMerkleMapRootFromBranch aw.commit [] key)
    | [] => .ok zero32

/-! ## Work-template and merge-mining-work eviction (GetWorkUnit) -/

/-- The identifiers collected by the eviction loop: non-current
templates whose nTime is older than 900 seconds before the rebuild. -/
def evictOldIds (wt : List (List Nat × StratumWork)) (job_id : List Nat)
    (now : Nat) : List (List Nat) :=
  (wt.filter (fun p => decide (p.1 ≠ job_id) &&
    decide (p.2.block.nTime + 900 < now))).map Prod.fst

/-- The oldest-template tracking of the eviction loop: the last
non-current template (in iteration order) whose nTime is at most the
running minimum, which starts at the rebuild time truncated to uint32. -/
def evictOldest (wt : List (List Nat × StratumWork)) (job_id : List Nat)
    (now : Nat) : Option (List Nat) :=
  (wt.foldl (fun acc p =>
      if p.1 = job_id then acc
      else if p.2.block.nTime ≤ acc.2 then (some p.1, p.2.block.nTime) else acc)
    ((none : Option (List Nat)), now % 4294967296)).1

/-- The cache after the age-based erasures. -/
def evictAged (wt : List (List Nat × StratumWork)) (job_id : List Nat)
    (now : Nat) : List (List Nat × StratumWork) :=
  wt.filter (fun p => decide (p.1 ∉ evictOldIds wt job_id now))

/-- The template-eviction pass run on each rebuild: one loop collects
the identifiers of non-current templates older than 900 seconds and
tracks the oldest non-current template whose nTime is at most the
rebuild time; the outdated ones are erased; then, if more than 30
templates remain, the tracked oldest one is erased. -/
def EvictWorkTemplates (wt : List (List Nat × StratumWork)) (job_id : List Nat)
    (now : Nat) : List (List Nat × StratumWork) :=
  if 30 < (evictAged wt job_id now).length then
    match evictOldest wt job_id now with
    | some k => (evictAged wt job_id now).filter (fun p => decide (p.1 ≠ k))
    | none => evictAged wt job_id now
  else evictAged wt job_id now

/-- The analogous eviction pass over a session's merge-mining work
bundles, keyed on millisecond creation timestamps (uint64 arithmetic,
so the cutoff subtraction wraps modulo 2^64). -/
def EvictMMWork (mm : List (List Nat × Nat × List (List Nat × AuxWork)))
    (nowMs : Nat) : List (List Nat × Nat × List (List Nat × AuxWork)) :=
  let cutoff := (nowMs + 18446744073709551616 - 900000) % 18446744073709551616
  let old_ids := (mm.filter (fun p => decide (p.2.1 < cutoff))).map Prod.fst
  let oldest := (mm.foldl (fun acc p =>
      if p.2.1 ≤ acc.2 then (some p.1, p.2.1) else acc)
    ((none : Option (List Nat)), nowMs)).1
  let mm1 := mm.filter (fun p => decide (p.1 ∉ old_ids))
  if 30 < mm1.length then
    match oldest with
    | some k => mm1.filter (fun p => decide (p.1 ≠ k))
    | none => mm1
  else mm1

/-! ## Segwit commitment refresh and the coinbase split -/

/-- Replace the first element of a list (vector index-0 assignment);
the callers guarantee nonemptiness, so the empty case is the identity. -/
def setHead {α : Type} (l : List α) (a : α) : List α :=
  match l with
  | [] => []
  | _ :: t => a :: t

/-- Replace the last element of a list (vector back assignment). -/
def setLast {α : Type} (l : List α) (a : α) : List α :=
  match l with
  | [] => []
  | _ => l.dropLast ++ [a]

/-- Erase output number pos of the first transaction of a block. -/
def eraseVout (b : CBlock) (pos : Nat) : CBlock :=
  match b.vtx with
  | [] => b
  | tx :: rest =>
    { b with vtx := { tx with vout := tx.vout.take pos ++ tx.vout.drop (pos + 1) } :: rest }

/-- The erase-existing-commitments loop of UpdateSegwitCommitment,
run with fuel bounded by the coinbase output count (each iteration
removes one output, per the GetWitnessCommitmentIndex contract). -/
def eraseCommitLoop (env : ExternalEnv) : Nat → CBlock → CBlock
  | 0, b => b
  | n + 1, b =>
    match env.GetWitnessCommitmentIndex b with
    | none => b
    | some pos =>
      if pos < (b.vtx.headD defaultTx).vout.length then
        eraseCommitLoop env n (eraseVout b pos)
      else b

/-- UpdateSegwitCommitment: substitute the customized coinbase and
block-final transactions into a copy of the template block, erase any
existing witness commitments, regenerate the commitment, and return the
resulting coinbase, block-final transaction and coinbase branch. -/
def UpdateSegwitCommitment (env : ExternalEnv) (current_work : StratumWork)
    (cb bf : CMutableTransaction) :
    CMutableTransaction × CMutableTransaction × List (List Nat) :=
  let block2 := { current_work.block with
                  vtx := setHead (setLast current_work.block.vtx bf) cb }
  let block2 := eraseCommitLoop env ((block2.vtx.headD defaultTx).vout.length + 1) block2
  let block2 := env.GenerateCoinbaseCommitment block2 current_work.m_prev_block_index
  (block2.vtx.headD defaultTx, block2.vtx.getLastD defaultTx,
   env.BlockMerkleBranch block2 0)

/-- Lines 625 to 634 of the work assembler: overwrite the coinbase
scriptSig with the height push followed by the push of the 12-byte
nonce (extranonce1 plus a zero extranonce2 placeholder), and replace a
placeholder OP_FALSE payout script with the miner address script. -/
def CustomizeCoinbaseScript (height : Int) (nonce : List Nat) (payout : List Nat)
    (cb : CMutableTransaction) : CMutableTransaction :=
  let sig := scriptPushInt height ++ scriptPushData nonce
  let cb := { cb with vin := setHead cb.vin { cb.vin.headD ⟨zero32, 0, [], 0⟩ with scriptSig := sig } }
  match cb.vout with
  | [] => cb
  | o :: rest =>
    if o.scriptPubKey = opFalseScript then
      { cb with vout := { o with scriptPubKey := payout } :: rest }
    else cb

/-- Lines 636 to 646 of the work assembler: serialize the customized
coinbase without witness data, check it is long enough to hold the
extranonce field, and split it around the 12-byte nonce that ends at
offset 4 + 1 + 32 + 4 + 1 + pushlen. -/
def SplitCoinbase (ds : List Nat) : Except StratumError (List Nat × List Nat) :=
  if ds.length < 4 + 1 + 32 + 4 + 1 then .error (.runtime .serializedTooSmall)
  else if ds.length < 4 + 1 + 32 + 4 + 1 + ds.getD (4 + 1 + 32 + 4) 0 then
    .error (.runtime .extranonceFieldMissing)
  else .ok (ds.take (4 + 1 + 32 + 4 + 1 + ds.getD (4 + 1 + 32 + 4) 0 - 4 - 8),
            ds.drop (4 + 1 + 32 + 4 + 1 + ds.getD (4 + 1 + 32 + 4) 0))

/-! ## GetWorkUnit -/

/-- The mining.notify parameters of an assembled work unit (the wire
rendering to JSON text keeps exactly these fields, with byte sequences
hex-encoded). -/
structure NotifyParams where
  job_id : String
  prevHash : List Nat
  cb1 : List Nat
  cb2 : List Nat
  branch : List (List Nat)
  nVersion : Nat
  nBits : Nat
  nTime : Nat
  clean : Bool
  deriving Repr, DecidableEq

/-- A full work delivery: the optional mining.set_extranonce payload,
the mining.set_difficulty value, and the mining.notify parameters, in
their wire order. -/
structure WorkMessage where
  extranonce : Option (List Nat)
  difficulty : Rat
  notify : NotifyParams
  deriving Repr, DecidableEq

/-- The template rebuild step of GetWorkUnit: when the tip changed, the
mempool advanced at least 5 seconds after the last rebuild, or the
current job was evicted, build a fresh template (throwing on assembler
failure), key it by the pre-customization block hash, insert it, and
run the eviction passes over the template cache and the session's
merge-mining bundles. -/
def rebuildIfNeeded (env : ExternalEnv) (st : ServerState) (client : StratumClient) :
    Except StratumError (ServerState × StratumClient) :=
  if st.tip ≠ env.chainTip
      ∨ (env.mempoolUpdated ≠ st.transactions_updated_last
          ∧ st.last_update_time + 5 < env.now)
      ∨ (lookupKey st.work_templates st.job_id).isNone then
    match env.createNewBlock with
    | none => .error (.jsonrpc RPC_OUT_OF_MEMORY "Out of memory")
    | some tmpl =>
      let block := { tmpl.block with hashMerkleRoot := env.BlockMerkleRoot tmpl.block }
      let job_id := sha256d (serU32 block.nVersion ++ block.hashPrevBlock
        ++ block.hashMerkleRoot ++ serU32 block.nTime ++ serU32 block.nBits
        ++ serU32 block.nNonce)
      let work : StratumWork :=
        { m_prev_block_index := env.chainTip
          block := block
          has_block_final_tx := tmpl.has_block_final_tx
          m_cb_branch := if env.isWitnessEnabled then [] else env.BlockMerkleBranch block 0
          m_is_witness_enabled := env.isWitnessEnabled
          m_height := env.tipHeight + 1 }
      let wt := insertKey st.work_templates job_id work
      let wt := EvictWorkTemplates wt job_id env.now
      let client := { client with m_mmwork := EvictMMWork client.m_mmwork (env.now * 1000) }
      let st1 := { st with
        work_templates := wt
        tip := env.chainTip
        job_id := job_id
        transactions_updated_last := env.mempoolUpdated
        last_update_time := env.now }
      .ok (st1, client)
  else .ok (st, client)

/-- The merge-mining commitment step of the primary path (lines 582 to
606): when the template has a block-final transaction and upstream
auxiliary work exists, compute the commitment root (which can throw for
multi-entry maps), cache the bundle in the session when new, and update
the block-final transaction; returns the possibly-updated session after
the step, the block-final transaction, the commitment flag and the
root. -/
def primaryMMStep (env : ExternalEnv) (client0 : StratumClient)
    (bf0 : CMutableTransaction) (hasbf : Bool) :
    Except StratumError (StratumClient × CMutableTransaction × Bool × List Nat) :=
  if hasbf then
    if (env.GetMergeMineWork client0.m_mmauth).isEmpty then .ok (client0, bf0, false, zero32)
    else
      match AuxWorkMerkleRoot env (env.GetMergeMineWork client0.m_mmauth) with
      | .error e => .error e
      | .ok mmroot =>
        .ok (if (lookupKey client0.m_mmwork mmroot).isNone then
               { client0 with m_mmwork := insertKey client0.m_mmwork mmroot (env.nowMillis, env.GetMergeMineWork client0.m_mmauth) }
             else client0,
             (env.UpdateBlockFinalTransaction bf0 mmroot).1,
             (env.UpdateBlockFinalTransaction bf0 mmroot).2, mmroot)
  else .ok (client0, bf0, false, zero32)

/-- The per-client customization tail of GetWorkUnit (lines 577 to 684):
merge-mining commitment insertion, segwit commitment refresh, difficulty
clamping, coinbase customization and split, and assembly of the notify
parameters.  The server state is read but never modified here.  The
merge-mining step result is the 4-tuple (session, block-final
transaction, commitment flag, root). -/
def primaryAssemble (env : ExternalEnv) (st : ServerState) (client0 : StratumClient)
    (current_work : StratumWork) :
    Except (StratumError × ServerState × StratumClient)
      (WorkMessage × ServerState × StratumClient) :=
  match primaryMMStep env client0 (current_work.block.vtx.getLastD defaultTx)
      current_work.has_block_final_tx with
  | .error e => .error (e, st, client0)
  | .ok q =>
    match SplitCoinbase (SerializeTransactionNoWitness (CustomizeCoinbaseScript
        current_work.m_height (ExtraNonce1 q.1 st.job_id ++ List.replicate 4 0)
        (env.GetScriptForDestination q.1.m_addr)
        (if current_work.m_is_witness_enabled then
          (UpdateSegwitCommitment env current_work
            (current_work.block.vtx.headD defaultTx) q.2.1).1
         else current_work.block.vtx.headD defaultTx))) with
    | .error e => .error (e, st, q.1)
    | .ok split =>
      .ok ({ extranonce := if q.1.m_supports_extranonce
                           then some (ExtraNonce1 q.1 st.job_id) else none
             difficulty := ClampDifficulty q.1 (env.GetDifficulty current_work.block.nBits)
             notify :=
               { job_id := hexStr st.job_id
                   ++ (if q.2.2.1 then ":" ++ hexStr q.2.2.2 else "")
                 prevHash := bswapChunks current_work.block.hashPrevBlock
                 cb1 := split.1
                 cb2 := split.2
                 branch := if current_work.m_is_witness_enabled then
                     (UpdateSegwitCommitment env current_work
                       (current_work.block.vtx.headD defaultTx) q.2.1).2.2
                   else current_work.m_cb_branch
                 nVersion := (env.UpdateTime (headerOfBlock current_work.block)).nVersion
                 nBits := (env.UpdateTime (headerOfBlock current_work.block)).nBits
                 nTime := (env.UpdateTime (headerOfBlock current_work.block)).nTime
                 clean := decide (q.1.m_last_tip ≠ st.tip) } },
           st,
           { q.1 with
             m_last_tip := st.tip
             m_nextid := q.1.m_nextid + (if q.1.m_supports_extranonce then 3 else 2) })

/-- GetWorkUnit: connectivity, sync and authorization preconditions,
then either the second-stage delivery path (when the upstream endpoint
has a bundle) or the primary-template path; in the latter case the
second-stage cache and the session's last-second-stage marker are
cleared first.  Thrown errors carry the state as mutated up to the
throw point, matching the C++ reference semantics. -/
def GetWorkUnit (env : ExternalEnv) (st : ServerState) (client : StratumClient) :
    Except (StratumError × ServerState × StratumClient)
      (WorkMessage × ServerState × StratumClient) :=
  if env.vNodesEmpty ∧ ¬env.mineBlocksOnDemand then
    .error (.jsonrpc RPC_CLIENT_NOT_CONNECTED "Bitcoin is not connected", st, client)
  else if env.isInitialBlockDownload then
    .error (.jsonrpc RPC_CLIENT_IN_INITIAL_DOWNLOAD "Bitcoin is downloading blocks", st, client)
  else if ¬client.m_authorized then
    .error (.jsonrpc RPC_INVALID_REQUEST "Stratum client not authorized", st, client)
  else
    match env.GetSecondStageWork (client.m_last_second_stage.map Prod.fst) with
    | some ss =>
      let chainid := ss.1
      let ssw := ss.2
      let diff := ClampDifficulty client ssw.diff
      let clean :=
        if client.m_last_second_stage = some (chainid, ssw.hashPrevBlock)
        then false else true
      let st1 := { st with second_stages := insertKey st.second_stages ssw.job_id (chainid, ssw) }
      let client1 := { client with
        m_last_second_stage := some (chainid, ssw.hashPrevBlock),
        m_nextid := client.m_nextid + (if client.m_supports_extranonce then 3 else 2) }
      .ok ({ extranonce := if client.m_supports_extranonce
                           then some (ExtraNonce1 client chainid) else none
             difficulty := diff
             notify :=
               { job_id := ":" ++ ssw.job_id
                 prevHash := bswapChunks ssw.hashPrevBlock
                 cb1 := ssw.cb1
                 cb2 := ssw.cb2
                 branch := ssw.cb_branch
                 nVersion := ssw.nVersion
                 nBits := ssw.nBits
                 nTime := ssw.nTime
                 clean := clean } }, st1, client1)
    | none =>
      match rebuildIfNeeded env { st with second_stages := [] }
          { client with m_last_second_stage := none } with
      | .error e =>
        .error (e, { st with second_stages := [] },
                { client with m_last_second_stage := none })
      | .ok (st2, client2) =>
        primaryAssemble env st2 client2
          ((lookupKey st2.work_templates st2.job_id).getD defaultWork)

/-! ## Share submission -/

/-- Modelled from the spec: CBlockHeader GetHash, the double SHA-256 of
the 80-byte serialized header (the primitives serializer is not among
the staged sources; the parent chain is Bitcoin-format). -/
def BlockHeaderHash (h : CBlockHeader) : List Nat :=
  sha256d (serU32 h.nVersion ++ h.hashPrevBlock ++ h.hashMerkleRoot
    ++ serU32 h.nTime ++ serU32 h.nBits ++ serU32 h.nNonce)

/-- What SubmitBlock logs about one auxiliary commitment. -/
inductive AuxLogEvent where
  | skipUnauthorized (chainid : List Nat)
  | gotAuxBlock (chainid : List Nat)
  | newAuxShare (chainid : List Nat)
  deriving Repr, DecidableEq

/-- The observable outcome of SubmitBlock: the consensus-acceptance
result, the updated session, the SubmitAuxChainShare invocations in
order, the per-commitment log events, and any block handed to
ProcessNewBlock. -/
structure SubmitOutcome where
  res : Bool
  client : StratumClient
  auxSubmits : List (List Nat × String × AuxWork × AuxProof)
  auxLogs : List AuxLogEvent
  processed : List CBlock

/-- The loop over the stored merge-mining bundle (lines 796 to 811):
unauthorized chains are skipped with a log line; authorized ones get a
SubmitAuxChainShare call unconditionally, and the auxiliary
proof-of-work check only selects the log message. -/
def auxSubmitLoop (env : ExternalEnv) (mmauth : List (List Nat × String × String))
    (auxproof : AuxProof) (hash : List Nat) :
    List (List Nat × AuxWork) →
      List (List Nat × String × AuxWork × AuxProof) × List AuxLogEvent
  | [] => ([], [])
  | (chainid, auxwork) :: rest =>
    match lookupKey mmauth chainid with
    | none =>
      let r := auxSubmitLoop env mmauth auxproof hash rest
      (r.1, .skipUnauthorized chainid :: r.2)
    | some up =>
      let r := auxSubmitLoop env mmauth auxproof hash rest
      ((chainid, up.1, auxwork, auxproof) :: r.1,
       (if env.CheckProofOfWork hash auxwork.bits auxwork.bias
        then .gotAuxBlock chainid else .newAuxShare chainid) :: r.2)

/-- The body of SubmitBlock past its guards: rebuild the customized
coinbase and block-final transactions exactly as the assembler did,
recompute the header, check primary proof-of-work and forward to
consensus when met, then emit auxiliary proofs for the stored
merge-mining bundle.  The empty-outputs check is made on the template
coinbase, whose outputs are those of the scriptSig-customized copy the
source checks. -/
def SubmitBlockCore (env : ExternalEnv) (client : StratumClient)
    (mmroot : List Nat) (current_work : StratumWork)
    (cb0 : CMutableTransaction) (nonce : List Nat)
    (nTime nNonce nVersion : Nat) :
    Except StratumError SubmitOutcome :=
  if cb0.vout.isEmpty then .error (.runtime .missingOutputs)
  else
  let sig := scriptPushInt current_work.m_height ++ scriptPushData nonce
  let cbA := { cb0 with vin := setHead cb0.vin { cb0.vin.headD ⟨zero32, 0, [], 0⟩ with scriptSig := sig } }
  let cbB :=
    match cbA.vout with
    | [] => cbA
    | o :: rest =>
      if o.scriptPubKey = opFalseScript then
        { cbA with vout := { o with scriptPubKey := env.GetScriptForDestination client.m_addr } :: rest }
      else cbA
  let bf0 := current_work.block.vtx.getLastD defaultTx
  let bf1 :=
    if current_work.has_block_final_tx then (env.UpdateBlockFinalTransaction bf0 mmroot).1
    else bf0
  let segwit :=
    if current_work.m_is_witness_enabled then UpdateSegwitCommitment env current_work cbB bf1
    else (cbB, bf1, current_work.m_cb_branch)
  let cb := segwit.1
  let bf := segwit.2.1
  let cb_branch := segwit.2.2
  let blkhdr := { headerOfBlock current_work.block with
    hashMerkleRoot := env.ComputeMerkleRootFromBranch (TxGetHash cb) cb_branch 0
    nTime := nTime
    nNonce := nNonce
    nVersion := nVersion }
  let hash := BlockHeaderHash blkhdr
  let builtBlock :=
    if env.CheckProofOfWork hash blkhdr.nBits 0 then
      let b0 := { current_work.block with vtx := setHead current_work.block.vtx cb }
      let b1 := if current_work.m_is_witness_enabled then { b0 with vtx := setLast b0.vtx bf } else b0
      some { b1 with
             hashMerkleRoot := env.BlockMerkleRoot b1
             nTime := nTime
             nNonce := nNonce
             nVersion := nVersion }
    else none
  let res := match builtBlock with
    | some b => env.ProcessNewBlock b
    | none => false
  let aux :=
    if current_work.m_is_witness_enabled ∧ current_work.has_block_final_tx
        ∧ (lookupKey client.m_mmwork mmroot).isSome then
      let bundle := ((lookupKey client.m_mmwork mmroot).getD (0, [])).2
      let dsbf0 := env.serializeTxProtocol bf
      let dsbf := dsbf0.take (dsbf0.length - 40)
      let mid := env.sha256Midstate dsbf
      let leaves := setLast (setHead (current_work.block.vtx.map TxGetHash) (TxGetHash cb))
        (TxGetHash bf)
      let auxproof : AuxProof :=
        { midstate_hash := mid.1
          midstate_buffer := mid.2.1
          midstate_length := mid.2.2 / 8
          lock_time := bf.nLockTime
          aux_branch := (env.ComputeStableMerkleBranch leaves (leaves.length - 1)).1
          num_txns := leaves.length
          nVersion := blkhdr.nVersion
          hashPrevBlock := blkhdr.hashPrevBlock
          nTime := blkhdr.nTime
          nBits := blkhdr.nBits
          nNonce := blkhdr.nNonce }
      auxSubmitLoop env client.m_mmauth auxproof hash bundle
    else ([], [])
  let client1 := if res then { client with m_send_work := true } else client
  .ok { res := res, client := client1, auxSubmits := aux.1, auxLogs := aux.2,
        processed := builtBlock.toList }

/-- SubmitBlock: the guard chain of lines 687 to 725 (empty template,
input count, combined nonce length, missing input) followed by the
customization-and-submission body. -/
def SubmitBlock (env : ExternalEnv) (client : StratumClient)
    (job_id mmroot : List Nat) (current_work : StratumWork)
    (extranonce2 : List Nat) (nTime nNonce nVersion : Nat) :
    Except StratumError SubmitOutcome :=
  if current_work.block.vtx.isEmpty then .error (.runtime .noTransactions)
  else if (current_work.block.vtx.headD defaultTx).vin.length ≠ 1 then
    .error (.runtime .badInputCount)
  else if (ExtraNonce1 client job_id).length + extranonce2.length ≠ 12 then
    .error (.runtime (.combinedNonceLength (ExtraNonce1 client job_id).length
      extranonce2.length))
  else if (current_work.block.vtx.headD defaultTx).vin.isEmpty then
    .error (.runtime .missingCoinbaseInput)
  else
    SubmitBlockCore env client mmroot current_work
      (current_work.block.vtx.headD defaultTx)
      (ExtraNonce1 client job_id ++ extranonce2) nTime nNonce nVersion

/-- The observable outcome of SubmitSecondStage. -/
structure SecondStageOutcome where
  res : Bool
  client : StratumClient
  submits : List (List Nat × String × SecondStageWork × SecondStageProof)
  logGotBlock : Option Bool

/-- SubmitSecondStage: refuse shares for chains the session is not
authorized for, otherwise forward the share upstream and rebuild the
header (coinbase hash from the cb1/extranonce/cb2 concatenation) to
check auxiliary proof-of-work for the log line. -/
def SubmitSecondStage (env : ExternalEnv) (client : StratumClient)
    (chainid : List Nat) (work : SecondStageWork) (extranonce2 : List Nat)
    (nTime nNonce nVersion : Nat) : SecondStageOutcome :=
  match lookupKey client.m_mmauth chainid with
  | none => { res := false, client := client, submits := [], logGotBlock := none }
  | some up =>
    let username := up.1
    let extranonce1 := ExtraNonce1 client chainid
    let proof : SecondStageProof := ⟨extranonce1, extranonce2, nVersion, nTime, nNonce⟩
    let h0 := sha256 (work.cb1 ++ extranonce1 ++ extranonce2 ++ work.cb2)
    let h1 := sha256 h0
    let blkhdr : CBlockHeader :=
      ⟨nVersion, work.hashPrevBlock, env.ComputeMerkleRootFromBranch h1 work.cb_branch 0,
       nTime, work.nBits, nNonce⟩
    let hash := BlockHeaderHash blkhdr
    let res := env.CheckProofOfWork hash work.nBits 0
    { res := res
      client := if res then { client with m_send_work := true } else client
      submits := [(chainid, username, work, proof)]
      logGotBlock := some res }

/-! ## The mining.submit and mining.authorize handlers -/

/-- Whether the first character of the submitted job identifier is the
second-stage colon marker (indexing an empty std::string yields the
null character, which is not a colon). -/
def firstIsColon (s : String) : Bool := decide (s.data.head? = some ':')

/-- Drop the first n characters of a string. -/
def strDropN (s : String) (n : Nat) : String := String.mk (s.data.drop n)

/-- Keep the first n characters of a string. -/
def strTakeN (s : String) (n : Nat) : String := String.mk (s.data.take n)

/-- Version rolling: combine the template version and the submitted
bits under the session's rolling mask (32-bit bitwise arithmetic). -/
def rollVersion (base bits mask : Nat) : Nat :=
  (base &&& (0xffffffff ^^^ mask)) ||| (bits &&& mask)

/-- Parse a primary-path job identifier: an optional merge-mining root
after the first colon (parsed first, as in the source), then the job
hash; without a colon the root stays the default zero hash. -/
def parsePrimaryId (id : String) : Except StratumError (List Nat × List Nat) :=
  match id.data.findIdx? (fun c => c = ':') with
  | some p =>
    match ParseUInt256 (.str (strDropN id (p + 1))) "mmroot" with
    | .error e => .error e
    | .ok mm =>
      match ParseUInt256 (.str (strTakeN id p)) "job_id" with
      | .error e => .error e
      | .ok j => .ok (j, mm)
  | none =>
    match ParseUInt256 (.str id) "job_id" with
    | .error e => .error e
    | .ok j => .ok (j, zero32)

/-- The mining.submit handler.  The global state is only read here;
thrown errors carry the session state at the throw point (no session
field is modified before any throw). -/
def stratum_mining_submit (env : ExternalEnv) (st : ServerState)
    (c : StratumClient) (params : List JVal) :
    Except (StratumError × StratumClient) (JVal × StratumClient) :=
  match BoundParams "mining.submit" params 5 6 with
  | .error e => .error (e, c)
  | .ok _ =>
  match getStr (uniAt params 1) with
  | .error e => .error (e, c)
  | .ok id =>
  match ParseHexV (uniAt params 2) "extranonce2" with
  | .error e => .error (e, c)
  | .ok extranonce2 =>
  if extranonce2.length ≠ 4 then
    .error (.jsonrpc RPC_INVALID_PARAMETER "extranonce2 is wrong length", c)
  else
  match ParseHexInt4 (uniAt params 3) "nTime" with
  | .error e => .error (e, c)
  | .ok nTime =>
  match ParseHexInt4 (uniAt params 4) "nNonce" with
  | .error e => .error (e, c)
  | .ok nNonce =>
  if firstIsColon id then
    match lookupKey st.second_stages (strDropN id 1) with
    | none => .ok (.bool false, { c with m_send_work := true })
    | some item =>
      if 5 < params.length then
        match ParseHexInt4 (uniAt params 5) "nVersion" with
        | .error e => .error (e, c)
        | .ok bits =>
          .ok (.bool true, (SubmitSecondStage env c item.1 item.2 extranonce2 nTime nNonce
            (rollVersion item.2.nVersion bits c.m_version_rolling_mask)).client)
      else
        .ok (.bool true, (SubmitSecondStage env c item.1 item.2 extranonce2 nTime nNonce
          item.2.nVersion).client)
  else
    match parsePrimaryId id with
    | .error e => .error (e, c)
    | .ok jm =>
      match lookupKey st.work_templates jm.1 with
      | none => .ok (.bool false, { c with m_send_work := true })
      | some current_work =>
        if 5 < params.length then
          match ParseHexInt4 (uniAt params 5) "nVersion" with
          | .error e => .error (e, c)
          | .ok bits =>
            match SubmitBlock env c jm.1 jm.2 current_work extranonce2 nTime nNonce
              (rollVersion current_work.block.nVersion bits c.m_version_rolling_mask) with
            | .error e => .error (e, c)
            | .ok out => .ok (.bool true, out.client)
        else
          match SubmitBlock env c jm.1 jm.2 current_work extranonce2 nTime nNonce
            current_work.block.nVersion with
          | .error e => .error (e, c)
          | .ok out => .ok (.bool true, out.client)

/-- Trim leading and trailing whitespace (boost trim). -/
def strTrim (s : String) : String :=
  String.mk (((s.data.dropWhile Char.isWhitespace).reverse.dropWhile Char.isWhitespace).reverse)

/-- The mining.authorize handler.  Its parameter-reading prefix (arity
bound, then unconditional get_str of params 0 and 1) is modeled
faithfully; the remainder of the handler (password option parsing,
merge-mine registration and the session updates of lines 932 to 1032)
is abstracted as the continuation argument, which receives the trimmed
username and password; the theorems below quantify over every possible
continuation, so nothing about it is assumed. -/
def stratum_mining_authorize (env : ExternalEnv)
    (core : StratumClient → String → String →
      Except (StratumError × StratumClient) (JVal × StratumClient))
    (client : StratumClient) (params : List JVal) :
    Except (StratumError × StratumClient) (JVal × StratumClient) :=
  match BoundParams "mining.authorize" params 1 2 with
  | .error e => .error (e, client)
  | .ok _ =>
    match getStr (uniAt params 0) with
    | .error e => .error (e, client)
    | .ok username =>
      match getStr (uniAt params 1) with
      | .error e => .error (e, client)
      | .ok password => core client (strTrim username) (strTrim password)

/-! ## Concrete instances used by witnesses -/

/-- A concrete environment with inert external collaborators. -/
def env0 : ExternalEnv :=
  { vNodesEmpty := false
    mineBlocksOnDemand := true
    isInitialBlockDownload := false
    chainTip := 1
    tipHeight := 0
    isWitnessEnabled := true
    now := 1000
    nowMillis := 1000000
    mempoolUpdated := 0
    createNewBlock := none
    GetSecondStageWork := fun _ => none
    GetMergeMineWork := fun _ => []
    UpdateBlockFinalTransaction := fun bf _ => (bf, false)
    GetWitnessCommitmentIndex := fun _ => none
    GenerateCoinbaseCommitment := fun b _ => b
    BlockMerkleBranch := fun _ _ => []
    BlockMerkleRoot := fun _ => zero32
    ComputeMerkleRootFromBranch := fun h _ _ => h
    ComputeMerkleMapRootFromBranch := fun c _ _ => c
    ComputeStableMerkleBranch := fun _ _ => ([], zero32)
    CheckProofOfWork := fun _ _ _ => false
    ProcessNewBlock := fun _ => false
    GetDifficulty := fun _ => 1
    GetScriptForDestination := fun _ => [0x51]
    UpdateTime := fun h => h
    serializeTxProtocol := fun _ => List.replicate 48 0
    sha256Midstate := fun _ => (zero32, [], 0) }

/-- A concrete authorized session with an all-zero secret. -/
def baseClient : StratumClient :=
  { m_nextid := 0
    m_secret := zero32
    m_client := ""
    m_authorized := true
    m_addr := ""
    m_mmauth := []
    m_mmwork := []
    m_mindiff := 0
    m_version_rolling_mask := 0
    m_last_tip := 0
    m_last_second_stage := none
    m_send_work := false
    m_supports_extranonce := false }

/-- A concrete empty server state. -/
def emptyState : ServerState :=
  { work_templates := []
    second_stages := []
    tip := 0
    job_id := zero32
    transactions_updated_last := 0
    last_update_time := 0 }

/-- A 64-character all-zero hex job identifier. -/
def jobIdHex0 : String := String.mk (List.replicate 64 (Char.ofNat 48))

/-- Concrete mining.submit parameters naming an unknown primary job. -/
def submitParams0 : List JVal :=
  [.str "user", .str jobIdHex0, .str "00000000", .str "00000000", .str "00000000"]

/-- A client whose minimum difficulty is positive but below the clamp
floor of 0.001 (2 to the power -11 is exactly representable in binary
floating point, so this value is realizable as a double). -/
def clampTestClient : StratumClient := { baseClient with m_mindiff := 1 / 2048 }

/-! ## Claim C9: the combined-nonce-length error is unreachable -/

/-- Recognizer for the combined-nonce-length runtime error in a
SubmitBlock result. -/
def isNonceLenErrS : Except StratumError SubmitOutcome → Bool
  | .error (.runtime (.combinedNonceLength _ _)) => true
  | _ => false

/-- Recognizer for the combined-nonce-length runtime error in a
handler result. -/
def isNonceLenErrH :
    Except (StratumError × StratumClient) (JVal × StratumClient) → Bool
  | .error (.runtime (.combinedNonceLength _ _), _) => true
  | _ => false

/-- Recognizer for the combined-nonce-length error value itself. -/
def isNonceLenErrE : StratumError → Bool
  | .runtime (.combinedNonceLength _ _) => true
  | _ => false

/-! ## Claim C3: mining.submit on known and unknown jobs -/

/-- Whether the job a mining.submit identifier references is present:
for a second-stage identifier (leading colon) membership in the
second-stage cache, otherwise membership of the parsed job hash in the
work-template cache. -/
def submitJobKnown (st : ServerState) (id : String) : Bool :=
  if firstIsColon id then (lookupKey st.second_stages (strDropN id 1)).isSome
  else
    match parsePrimaryId id with
    | .error _ => false
    | .ok jm => (lookupKey st.work_templates jm.1).isSome

/-- A concrete coinbase input for the C1 witness. -/
def c1In : CTxIn := ⟨zero32, 4294967295, [], 4294967295⟩

/-- A concrete template coinbase for the C1 witness. -/
def c1Coinbase : CMutableTransaction :=
  { nVersion := 1, vin := [c1In], vout := [⟨5000000000, [0x00]⟩], nLockTime := 0 }

/-- C4 counterexample cache: a current job (key 0) plus 30 non-current
templates all carrying an nTime one second in the future of the rebuild
time, so the oldest-tracking finds nothing and the pass leaves 31
entries. -/
def c4OverfullCache : List (List Nat × StratumWork) :=
  ([0], { defaultWork with block := { defaultWork.block with nTime := 1000 } })
    :: (List.range 30).map (fun i =>
        ([i + 1], { defaultWork with block := { defaultWork.block with nTime := 1001 } }))

/-- A two-entry cache for the C4 witness: the current job and one old
non-current template. -/
def c4SmallCache : List (List Nat × StratumWork) :=
  [([0], { defaultWork with block := { defaultWork.block with nTime := 100 } }),
   ([1], { defaultWork with block := { defaultWork.block with nTime := 50 } })]

/-! ## Claim C7: aux-chain submission does not depend on aux proof-of-work -/

/-- Modelled from the spec: the set of SubmitAuxChainShare calls the
spec requires for a stored bundle, namely one call per bundle entry the
session is authorized for, each carrying the upstream username and the
same auxiliary proof; no proof-of-work condition appears. -/
def specAuxSubmissions (mmauth : List (List Nat × String × String))
    (bundle : List (List Nat × AuxWork)) (pf : AuxProof) :
    List (List Nat × String × AuxWork × AuxProof) :=
  bundle.filterMap (fun p => (lookupKey mmauth p.1).map (fun up => (p.1, up.1, p.2, pf)))

/-- The log events the loop produces: a skip for unauthorized chains,
otherwise an aux-block or aux-share line selected by the auxiliary
proof-of-work check on the share's hash. -/
def specAuxLogs (env : ExternalEnv) (mmauth : List (List Nat × String × String))
    (hash : List Nat) (bundle : List (List Nat × AuxWork)) : List AuxLogEvent :=
  bundle.map (fun p =>
    match lookupKey mmauth p.1 with
    | none => .skipUnauthorized p.1
    | some _ =>
      if env.CheckProofOfWork hash p.2.bits p.2.bias then .gotAuxBlock p.1
      else .newAuxShare p.1)

/-- A chain identifier, merge-mining root and aux bundle for the C7
witness. -/
def c7Chain : List Nat := [1]

/-- The stored merge-mining root of the C7 witness. -/
def c7Root : List Nat := [2]

/-- The auxiliary work of the C7 witness bundle. -/
def c7Aux : AuxWork := { commit := [3], bits := 7, bias := 0 }

/-- A session authorized for the witness chain and holding its bundle. -/
def c7Client : StratumClient :=
  { baseClient with
    m_mmauth := [(c7Chain, ("bob", "p"))]
    m_mmwork := [(c7Root, (5, [(c7Chain, c7Aux)]))] }

/-- A two-transaction witness-enabled template with a block-final
transaction for the C7 witness. -/
def c7Work : StratumWork :=
  { m_prev_block_index := 1
    block := { nVersion := 1, hashPrevBlock := zero32, hashMerkleRoot := zero32,
               nTime := 0, nBits := 0x207fffff, nNonce := 0,
               vtx := [c1Coinbase, { nVersion := 2, vin := [c1In], vout := [⟨0, [0x6a]⟩],
                                     nLockTime := 0 }] }
    has_block_final_tx := true
    m_cb_branch := []
    m_is_witness_enabled := true
    m_height := 1 }

/-! ## Claim C10: losing the second-stage bundle clears the cache -/

/-- Both components of a GetWorkUnit outcome: the server and session
state as left behind by a normal return or by a throw. -/
def resultState
    (r : Except (StratumError × ServerState × StratumClient)
      (WorkMessage × ServerState × StratumClient)) : ServerState × StratumClient :=
  match r with
  | .ok p => (p.2.1, p.2.2)
  | .error p => (p.2.1, p.2.2)

/-- A second-stage work unit for the C10 witness state. -/
def ssw0 : SecondStageWork :=
  { job_id := "abcd", hashPrevBlock := zero32, cb1 := [], cb2 := [],
    cb_branch := [], nVersion := 1, nBits := 1, nTime := 1, diff := 1 }

/-- A server state carrying one second-stage job before the clear. -/
def c10State : ServerState := { emptyState with second_stages := [("abcd", (c7Chain, ssw0))] }

/-- The SHA-256 digest is always 32 bytes. -/
theorem sha256_length (msg : List Nat) : (sha256 msg).length = 32 := by
  simp [sha256, wordBE]

/-- ExtraNonce1 always returns exactly 8 bytes. -/
theorem ExtraNonce1_length (client : StratumClient) (job_id : List Nat) :
    (ExtraNonce1 client job_id).length = 8 := by
  simp [ExtraNonce1, sha256_length]

/-! ## Claim C2: difficulty clamping -/

/-- C2 counterexample: with the client minimum difficulty 1/2048, which
is positive, ClampDifficulty returns the clamp floor 1/1000 rather than
the minimum difficulty, so the claim that a positive mindiff is always
returned exactly is false. -/
theorem c2_clamp_counterexample :
    clampTestClient.m_mindiff > 0
    ∧ ClampDifficulty clampTestClient 5 ≠ clampTestClient.m_mindiff := by
  constructor
  · norm_num [clampTestClient, baseClient]
  · norm_num [ClampDifficulty, clampTestClient, baseClient]

/-- C2 (amended): the result of ClampDifficulty is at least 0.001, and
whenever the client minimum difficulty is positive the result equals
the larger of that minimum and 0.001 (so it equals mindiff exactly only
when mindiff is at least 0.001). -/
theorem c2_clamp_difficulty (client : StratumClient) (diff : Rat) :
    ClampDifficulty client diff ≥ 1 / 1000
    ∧ (client.m_mindiff > 0 →
        ClampDifficulty client diff = max client.m_mindiff (1 / 1000)) := by
  unfold ClampDifficulty
  refine ⟨le_max_right _ _, fun h => ?_⟩
  simp [h]

/-! ## Claim C5: extranonce derivation -/

/-- C5: ExtraNonce1 is the first 8 bytes of the SHA-256 of the session
secret followed by the job identifier exactly when the session has
subscribed to extranonce updates (the secret alone otherwise), and with
the subscription off the result does not depend on the job identifier. -/
theorem c5_extranonce1 (client : StratumClient) (J : List Nat) :
    ExtraNonce1 client J =
      (sha256 (client.m_secret ++ (if client.m_supports_extranonce then J else []))).take 8
    ∧ (client.m_supports_extranonce = false →
        ∀ J2, ExtraNonce1 client J = ExtraNonce1 client J2) := by
  refine ⟨rfl, fun h J2 => ?_⟩
  simp [ExtraNonce1, h]

/-! ## Claim C6: the single-entry merge-mining tree -/

/-- C6: AuxWorkMerkleRoot throws for every map with more than one
auxiliary commitment, returns the zero hash on the empty map, and on a
singleton map returns the single-entry merkle-map root of the
commitment keyed by the chain identifier. -/
theorem c6_auxwork_merkle_root (env : ExternalEnv)
    (mmwork : List (List Nat × AuxWork)) :
    (1 < mmwork.length →
      AuxWorkMerkleRoot env mmwork = .error (.runtime .auxTooMany))
    ∧ AuxWorkMerkleRoot env [] = .ok zero32
    ∧ ∀ k v, AuxWorkMerkleRoot env [(k, v)] =
        .ok (env.ComputeMerkleMapRootFromBranch v.commit [] k) := by
  refine ⟨fun h => ?_, rfl, fun k v => rfl⟩
  match mmwork, h with
  | (k1, v1) :: (k2, v2) :: rest, _ =>
    simp [AuxWorkMerkleRoot]

/-! ## Claim C8: one-parameter mining.authorize -/

/-- C8: a one-parameter mining.authorize request passes the arity bound
(minimum 1), but the unconditional read of the password parameter then
throws the not-a-string runtime error before any session state is
modified (the error carries the unchanged client), and the reply kind
is the internal error, not the Invalid params arity error. -/
theorem c8_authorize_one_param (env : ExternalEnv)
    (core : StratumClient → String → String →
      Except (StratumError × StratumClient) (JVal × StratumClient))
    (client : StratumClient) (p : JVal) :
    BoundParams "mining.authorize" [p] 1 2 = .ok ()
    ∧ stratum_mining_authorize env core client [p]
        = .error (.runtime .notAString, client)
    ∧ errorCodeOf (.runtime .notAString) = RPC_INTERNAL_ERROR
    ∧ RPC_INTERNAL_ERROR ≠ RPC_INVALID_PARAMETER := by
  refine ⟨rfl, ?_, rfl, by decide⟩
  cases p <;> rfl

/-- SubmitBlock never reports the combined-nonce-length error when the
extranonce2 it receives is exactly 4 bytes, because ExtraNonce1 always
contributes exactly 8. -/
theorem submitBlock_no_nonce_len_error (env : ExternalEnv) (c : StratumClient)
    (job_id mmroot : List Nat) (w : StratumWork) (en2 : List Nat)
    (t n v : Nat) (h : en2.length = 4) :
    isNonceLenErrS (SubmitBlock env c job_id mmroot w en2 t n v) = false := by
  have hcore : ∀ cb0 nonce,
      isNonceLenErrS (SubmitBlockCore env c mmroot w cb0 nonce t n v) = false := by
    intro cb0 nonce
    unfold SubmitBlockCore
    split
    · rfl
    · rfl
  unfold SubmitBlock
  split
  · rfl
  · split
    · rfl
    · split
      · rename_i hlen
        rw [ExtraNonce1_length, h] at hlen
        omega
      · split
        · rfl
        · exact hcore _ _

/-- Relate the SubmitBlock-level and error-value recognizers. -/
theorem isNonceLenErrS_error (e : StratumError) :
    isNonceLenErrS (.error e) = isNonceLenErrE e := by
  cases e with
  | jsonrpc code msg => rfl
  | runtime m => cases m <;> rfl

/-- Relate the handler-level and error-value recognizers. -/
theorem isNonceLenErrH_error (e : StratumError) (cl : StratumClient) :
    isNonceLenErrH (.error (e, cl)) = isNonceLenErrE e := by
  cases e with
  | jsonrpc code msg => rfl
  | runtime m => cases m <;> rfl

/-- BoundParams only throws Invalid params errors. -/
theorem boundParams_err_shape (m : String) (ps : List JVal) (a b : Nat)
    (e : StratumError) (h : BoundParams m ps a b = .error e) :
    isNonceLenErrE e = false := by
  unfold BoundParams at h
  split at h
  · cases h; rfl
  · split at h
    · cases h; rfl
    · simp at h

/-- getStr only throws the not-a-string error. -/
theorem getStr_err_shape (v : JVal) (e : StratumError)
    (h : getStr v = .error e) : isNonceLenErrE e = false := by
  cases v <;> simp [getStr] at h <;> (rw [← h]; rfl)

/-- ParseHexV only throws Invalid params errors. -/
theorem parseHexV_err_shape (v : JVal) (nm : String) (e : StratumError)
    (h : ParseHexV v nm = .error e) : isNonceLenErrE e = false := by
  simp only [ParseHexV] at h
  split at h
  · simp at h
  · cases h; rfl

/-- ParseHexInt4 only throws Invalid params errors. -/
theorem parseHexInt4_err_shape (v : JVal) (nm : String) (e : StratumError)
    (h : ParseHexInt4 v nm = .error e) : isNonceLenErrE e = false := by
  unfold ParseHexInt4 at h
  split at h
  · rename_i e' he'
    cases h
    exact parseHexV_err_shape _ _ _ he'
  · split at h
    · cases h; rfl
    · simp at h

/-- ParseUInt256 only throws its two hex-shape runtime errors. -/
theorem parseUInt256_err_shape (v : JVal) (nm : String) (e : StratumError)
    (h : ParseUInt256 v nm = .error e) : isNonceLenErrE e = false := by
  simp only [ParseUInt256] at h
  split at h
  · split at h
    · cases h; rfl
    · simp at h
  · cases h; rfl

/-- parsePrimaryId only throws ParseUInt256 errors. -/
theorem parsePrimaryId_err_shape (s : String) (e : StratumError)
    (h : parsePrimaryId s = .error e) : isNonceLenErrE e = false := by
  unfold parsePrimaryId at h
  split at h
  · split at h
    · rename_i he; cases h; exact parseUInt256_err_shape _ _ _ he
    · split at h
      · rename_i he; cases h; exact parseUInt256_err_shape _ _ _ he
      · simp at h
  · split at h
    · rename_i he; cases h; exact parseUInt256_err_shape _ _ _ he
    · simp at h

/-- C9: the combined-nonce-length error branch of SubmitBlock is
unreachable through the mining.submit handler: the handler rejects any
extranonce2 that is not exactly 4 bytes before calling SubmitBlock, and
ExtraNonce1 always contributes exactly 8 bytes, so no execution of the
handler ever surfaces that error. -/
theorem c9_nonce_len_unreachable (env : ExternalEnv) (st : ServerState)
    (c : StratumClient) (params : List JVal) :
    isNonceLenErrH (stratum_mining_submit env st c params) = false := by
  unfold stratum_mining_submit
  split
  · rename_i e heq
    rw [isNonceLenErrH_error]
    exact boundParams_err_shape _ _ _ _ _ heq
  · split
    · rename_i e heq
      rw [isNonceLenErrH_error]
      exact getStr_err_shape _ _ heq
    · rename_i id hid
      split
      · rename_i e heq
        rw [isNonceLenErrH_error]
        exact parseHexV_err_shape _ _ _ heq
      · rename_i en2 hen2
        split
        · rfl
        · rename_i hlen
          have h4 : en2.length = 4 := by omega
          split
          · rename_i e heq
            rw [isNonceLenErrH_error]
            exact parseHexInt4_err_shape _ _ _ heq
          · split
            · rename_i e heq
              rw [isNonceLenErrH_error]
              exact parseHexInt4_err_shape _ _ _ heq
            · split
              · split
                · rfl
                · split
                  · split
                    · rename_i e heq
                      rw [isNonceLenErrH_error]
                      exact parseHexInt4_err_shape _ _ _ heq
                    · rfl
                  · rfl
              · split
                · rename_i e heq
                  rw [isNonceLenErrH_error]
                  exact parsePrimaryId_err_shape _ _ heq
                · split
                  · rfl
                  · split
                    · split
                      · rename_i e heq
                        rw [isNonceLenErrH_error]
                        exact parseHexInt4_err_shape _ _ _ heq
                      · split
                        · rename_i e heq
                          rw [isNonceLenErrH_error, ← isNonceLenErrS_error, ← heq]
                          exact submitBlock_no_nonce_len_error _ _ _ _ _ _ _ _ _ h4
                        · rfl
                    · split
                      · rename_i e heq
                        rw [isNonceLenErrH_error, ← isNonceLenErrS_error, ← heq]
                        exact submitBlock_no_nonce_len_error _ _ _ _ _ _ _ _ _ h4
                      · rfl

/-- C3: every non-throwing run of the mining.submit handler returns
false exactly when the referenced job is unknown (absent primary job
hash or absent second-stage identifier), in which case the session's
send-work flag is set; for every known job it returns true. -/
theorem c3_submit_result (env : ExternalEnv) (st : ServerState) (c : StratumClient)
    (params : List JVal) (id : String) {v : JVal} {c2 : StratumClient}
    (hid : uniAt params 1 = .str id)
    (h : stratum_mining_submit env st c params = .ok (v, c2)) :
    v = .bool (submitJobKnown st id)
    ∧ (submitJobKnown st id = false → c2 = { c with m_send_work := true }) := by
  unfold stratum_mining_submit at h
  split at h
  · simp at h
  · split at h
    · simp at h
    · rename_i id2 hid2
      rw [hid] at hid2
      simp only [getStr, Except.ok.injEq] at hid2
      subst hid2
      split at h
      · simp at h
      · split at h
        · simp at h
        · split at h
          · simp at h
          · split at h
            · simp at h
            · split at h
              · rename_i hco
                split at h
                · rename_i hlook
                  simp only [Except.ok.injEq, Prod.mk.injEq] at h
                  obtain ⟨hv, hc⟩ := h
                  subst hv
                  subst hc
                  refine ⟨by simp [submitJobKnown, hco, hlook], fun _ => rfl⟩
                · rename_i item hlook
                  split at h
                  · split at h
                    · simp at h
                    · simp only [Except.ok.injEq, Prod.mk.injEq] at h
                      obtain ⟨hv, hc⟩ := h
                      subst hv
                      refine ⟨by simp [submitJobKnown, hco, hlook], fun habs => ?_⟩
                      simp [submitJobKnown, hco, hlook] at habs
                  · simp only [Except.ok.injEq, Prod.mk.injEq] at h
                    obtain ⟨hv, hc⟩ := h
                    subst hv
                    refine ⟨by simp [submitJobKnown, hco, hlook], fun habs => ?_⟩
                    simp [submitJobKnown, hco, hlook] at habs
              · rename_i hco
                split at h
                · simp at h
                · rename_i jm hparse
                  split at h
                  · rename_i hlook
                    simp only [Except.ok.injEq, Prod.mk.injEq] at h
                    obtain ⟨hv, hc⟩ := h
                    subst hv
                    subst hc
                    refine ⟨by simp [submitJobKnown, hco, hparse, hlook], fun _ => rfl⟩
                  · rename_i cw hlook
                    split at h
                    · split at h
                      · simp at h
                      · split at h
                        · simp at h
                        · simp only [Except.ok.injEq, Prod.mk.injEq] at h
                          obtain ⟨hv, hc⟩ := h
                          subst hv
                          refine ⟨by simp [submitJobKnown, hco, hparse, hlook], fun habs => ?_⟩
                          simp [submitJobKnown, hco, hparse, hlook] at habs
                    · split at h
                      · simp at h
                      · simp only [Except.ok.injEq, Prod.mk.injEq] at h
                        obtain ⟨hv, hc⟩ := h
                        subst hv
                        refine ⟨by simp [submitJobKnown, hco, hparse, hlook], fun habs => ?_⟩
                        simp [submitJobKnown, hco, hparse, hlook] at habs

/-! ## Claim C1: the cb1 and cb2 split is lossless -/

/-- The scriptSig customization changes only the first input. -/
theorem customize_vin (height : Int) (nonce payout : List Nat)
    (cb : CMutableTransaction) :
    (CustomizeCoinbaseScript height nonce payout cb).vin
      = setHead cb.vin { cb.vin.headD ⟨zero32, 0, [], 0⟩ with
          scriptSig := scriptPushInt height ++ scriptPushData nonce } := by
  simp only [CustomizeCoinbaseScript]
  split
  · rfl
  · split <;> rfl

/-- On a byte sequence shaped like the serialization of a customized
coinbase (a 41-byte fixed prefix, the one-byte scriptSig length, the
height push, the one-byte nonce-push opcode, the 8-byte extranonce1,
the 4-byte zero placeholder, then the remainder), the split succeeds
and returns exactly the part before the 12-byte nonce and the part
after it. -/
theorem splitCoinbase_spec (A pushH en1 z4 S : List Nat)
    (hA : A.length = 41) (h8 : en1.length = 8) (h4 : z4.length = 4) :
    SplitCoinbase (A ++ [pushH.length + 13] ++ pushH ++ [12] ++ en1 ++ z4 ++ S)
      = .ok (A ++ [pushH.length + 13] ++ pushH ++ [12], S) := by
  have hlen : (A ++ [pushH.length + 13] ++ pushH ++ [12] ++ en1 ++ z4 ++ S).length
      = 55 + pushH.length + S.length := by
    simp [hA, h8, h4]
    omega
  have hget : (A ++ [pushH.length + 13] ++ pushH ++ [12] ++ en1 ++ z4 ++ S).getD
      (4 + 1 + 32 + 4) 0 = pushH.length + 13 := by
    rw [List.getD_eq_getElem?_getD]
    rw [show A ++ [pushH.length + 13] ++ pushH ++ [12] ++ en1 ++ z4 ++ S
        = A ++ ([pushH.length + 13] ++ (pushH ++ ([12] ++ (en1 ++ (z4 ++ S)))))
        from by simp]
    rw [List.getElem?_append_right (by omega)]
    rw [hA]
    simp
  have htake : (A ++ [pushH.length + 13] ++ pushH ++ [12] ++ en1 ++ z4 ++ S).take
      (4 + 1 + 32 + 4 + 1 + (pushH.length + 13) - 4 - 8)
      = A ++ [pushH.length + 13] ++ pushH ++ [12] := by
    rw [show (4 + 1 + 32 + 4 + 1 + (pushH.length + 13) - 4 - 8 : Nat)
        = (A ++ [pushH.length + 13] ++ pushH ++ [12]).length
        from by simp [hA]; omega]
    rw [show A ++ [pushH.length + 13] ++ pushH ++ [12] ++ en1 ++ z4 ++ S
        = (A ++ [pushH.length + 13] ++ pushH ++ [12]) ++ (en1 ++ (z4 ++ S))
        from by simp]
    exact List.take_left _ _
  have hdrop : (A ++ [pushH.length + 13] ++ pushH ++ [12] ++ en1 ++ z4 ++ S).drop
      (4 + 1 + 32 + 4 + 1 + (pushH.length + 13)) = S := by
    rw [show (4 + 1 + 32 + 4 + 1 + (pushH.length + 13) : Nat)
        = (A ++ [pushH.length + 13] ++ pushH ++ [12] ++ en1 ++ z4).length
        from by simp [hA, h8, h4]; omega]
    exact List.drop_left _ _
  unfold SplitCoinbase
  rw [hget, hlen]
  rw [if_neg (by omega), if_neg (by omega)]
  rw [htake, hdrop]

/-- C1: for the primary-path customization performed by GetWorkUnit
(scriptSig set to the height push followed by the push of extranonce1
and a zero 4-byte extranonce2 placeholder), the cb1/cb2 split of the
no-witness serialization is lossless: re-concatenating cb1, the 8-byte
extranonce1, the 4 zero bytes and cb2 reproduces the serialization
exactly, so their double SHA-256 equals the hash of the customized
coinbase transaction serialized without witness. -/
theorem c1_coinbase_split_lossless (client : StratumClient) (job_id : List Nat)
    (height : Int) (payout : List Nat) (cb : CMutableTransaction)
    (i1 : CTxIn) (ins : List CTxIn)
    (hvin : cb.vin = i1 :: ins)
    (hcnt : cb.vin.length < 253)
    (hprev : i1.prevoutHash.length = 32)
    (hsig : (scriptPushInt height).length + 13 < 253) :
    ∃ cb1 cb2,
      SplitCoinbase (SerializeTransactionNoWitness (CustomizeCoinbaseScript height
          (ExtraNonce1 client job_id ++ List.replicate 4 0) payout cb)) = .ok (cb1, cb2)
      ∧ cb1 ++ ExtraNonce1 client job_id ++ List.replicate 4 0 ++ cb2
          = SerializeTransactionNoWitness (CustomizeCoinbaseScript height
              (ExtraNonce1 client job_id ++ List.replicate 4 0) payout cb)
      ∧ sha256d (cb1 ++ ExtraNonce1 client job_id ++ List.replicate 4 0 ++ cb2)
          = sha256d (SerializeTransactionNoWitness (CustomizeCoinbaseScript height
              (ExtraNonce1 client job_id ++ List.replicate 4 0) payout cb)) := by
  have h8 : (ExtraNonce1 client job_id).length = 8 := ExtraNonce1_length client job_id
  set en1 := ExtraNonce1 client job_id with hen1def
  set z4 : List Nat := List.replicate 4 0 with hz4def
  have h4 : z4.length = 4 := by simp [hz4def]
  set nonce : List Nat := en1 ++ z4 with hnoncedef
  have hn12 : nonce.length = 12 := by simp [hnoncedef, h8, h4]
  set cbC := CustomizeCoinbaseScript height nonce payout cb with hcbCdef
  set sigH := scriptPushInt height with hsigHdef
  have hpd : scriptPushData nonce = 12 :: nonce := by
    unfold scriptPushData
    simp [hn12]
  have hvinC : cbC.vin = { i1 with scriptSig := sigH ++ (12 :: nonce) } :: ins := by
    rw [hcbCdef, customize_vin, hvin, hpd]
    rfl
  have hvinlenC : cbC.vin.length = ins.length + 1 := by rw [hvinC]; simp
  have hcnt2 : cbC.vin.length < 253 := by
    rw [hvinlenC]
    rw [hvin] at hcnt
    simpa using hcnt
  have hcsvin : serCompactSize cbC.vin.length = [ins.length + 1] := by
    unfold serCompactSize
    rw [if_pos hcnt2, hvinlenC]
  have hsiglen : (sigH ++ (12 :: nonce)).length = sigH.length + 13 := by
    simp [hn12]
  have hcssig : serCompactSize (sigH ++ (12 :: nonce)).length = [sigH.length + 13] := by
    rw [hsiglen]
    unfold serCompactSize
    rw [if_pos hsig]
  have hds : SerializeTransactionNoWitness cbC
      = (serU32 cbC.nVersion ++ [ins.length + 1] ++ i1.prevoutHash ++ serU32 i1.prevoutN)
          ++ [sigH.length + 13] ++ sigH ++ [12] ++ en1 ++ z4
          ++ (serU32 i1.nSequence ++ (ins.map serTxIn).flatten
              ++ serCompactSize cbC.vout.length ++ (cbC.vout.map serTxOut).flatten
              ++ serU32 cbC.nLockTime) := by
    rw [SerializeTransactionNoWitness, hcsvin, hvinC]
    simp only [List.map_cons, List.flatten_cons, serTxIn]
    rw [hcssig]
    simp [List.append_assoc, hnoncedef]
  have hAlen : (serU32 cbC.nVersion ++ [ins.length + 1] ++ i1.prevoutHash
      ++ serU32 i1.prevoutN).length = 41 := by
    simp [serU32, hprev]
  refine ⟨(serU32 cbC.nVersion ++ [ins.length + 1] ++ i1.prevoutHash ++ serU32 i1.prevoutN)
      ++ [sigH.length + 13] ++ sigH ++ [12],
    serU32 i1.nSequence ++ (ins.map serTxIn).flatten
      ++ serCompactSize cbC.vout.length ++ (cbC.vout.map serTxOut).flatten
      ++ serU32 cbC.nLockTime, ?_, ?_, ?_⟩
  · rw [hds]
    exact splitCoinbase_spec _ _ _ _ _ hAlen h8 h4
  · rw [hds]
  · rw [hds]

/-- C1 witness: the split is lossless on a concrete height-1 coinbase. -/
theorem c1_coinbase_split_lossless_witness :
    c1Coinbase.vin = c1In :: []
    ∧ c1Coinbase.vin.length < 253
    ∧ c1In.prevoutHash.length = 32
    ∧ (scriptPushInt 1).length + 13 < 253
    ∧ (∃ cb1 cb2,
        SplitCoinbase (SerializeTransactionNoWitness (CustomizeCoinbaseScript 1
            (ExtraNonce1 baseClient zero32 ++ List.replicate 4 0) [0x51] c1Coinbase))
          = .ok (cb1, cb2)
        ∧ cb1 ++ ExtraNonce1 baseClient zero32 ++ List.replicate 4 0 ++ cb2
            = SerializeTransactionNoWitness (CustomizeCoinbaseScript 1
                (ExtraNonce1 baseClient zero32 ++ List.replicate 4 0) [0x51] c1Coinbase)
        ∧ sha256d (cb1 ++ ExtraNonce1 baseClient zero32 ++ List.replicate 4 0 ++ cb2)
            = sha256d (SerializeTransactionNoWitness (CustomizeCoinbaseScript 1
                (ExtraNonce1 baseClient zero32 ++ List.replicate 4 0) [0x51] c1Coinbase))) :=
  ⟨rfl, by decide, by decide, by decide,
   c1_coinbase_split_lossless baseClient zero32 1 [0x51] c1Coinbase c1In []
     rfl (by decide) (by decide) (by decide)⟩

/-! ## Claim C4: eviction bounds -/

/-- If some element of the list fails the predicate, filtering strictly
shrinks it. -/
theorem length_filter_lt_of_mem {α : Type} (p : α → Bool) (l : List α) (a : α)
    (ha : a ∈ l) (hpa : p a = false) : (l.filter p).length < l.length := by
  induction l with
  | nil => simp at ha
  | cons b t ih =>
    rcases List.mem_cons.mp ha with rfl | hat
    · rw [List.filter_cons, hpa]
      simp only [List.length_cons]
      exact Nat.lt_succ_of_le (List.length_filter_le _ _)
    · rw [List.filter_cons]
      by_cases hb : p b = true
      · simp only [hb, if_pos, List.length_cons]
        exact Nat.succ_lt_succ (ih hat)
      · simp only [Bool.not_eq_true] at hb
        rw [hb]
        simp only [List.length_cons]
        exact Nat.lt_succ_of_lt (ih hat)

/-- If filtering preserves length, every element passes the predicate. -/
theorem filter_length_eq_all {α : Type} (p : α → Bool) (l : List α)
    (h : (l.filter p).length = l.length) : ∀ a ∈ l, p a = true := by
  intro a ha
  by_contra hcon
  simp only [Bool.not_eq_true] at hcon
  have := length_filter_lt_of_mem p l a ha hcon
  omega

/-- The oldest-tracking fold produces a tracked key whenever the
accumulator already holds one or some non-current entry has nTime at
most the running minimum. -/
theorem oldestFold_isSome (job_id : List Nat) (l : List (List Nat × StratumWork))
    (acc : Option (List Nat) × Nat)
    (h : acc.1.isSome ∨ ∃ p ∈ l, p.1 ≠ job_id ∧ p.2.block.nTime ≤ acc.2) :
    ((l.foldl (fun acc p =>
        if p.1 = job_id then acc
        else if p.2.block.nTime ≤ acc.2 then (some p.1, p.2.block.nTime) else acc)
      acc).1).isSome := by
  induction l generalizing acc with
  | nil =>
    rcases h with h | ⟨p, hp, _⟩
    · simpa using h
    · simp at hp
  | cons p t ih =>
    simp only [List.foldl_cons]
    by_cases hpj : p.1 = job_id
    · rw [if_pos hpj]
      apply ih
      rcases h with h | ⟨q, hq, hne, hle⟩
      · exact Or.inl h
      · rcases List.mem_cons.mp hq with rfl | hqt
        · exact absurd hpj hne
        · exact Or.inr ⟨q, hqt, hne, hle⟩
    · rw [if_neg hpj]
      by_cases hle2 : p.2.block.nTime ≤ acc.2
      · rw [if_pos hle2]
        exact ih _ (Or.inl rfl)
      · rw [if_neg hle2]
        apply ih
        rcases h with h | ⟨q, hq, hne, hle⟩
        · exact Or.inl h
        · rcases List.mem_cons.mp hq with rfl | hqt
          · exact absurd hle hle2
          · exact Or.inr ⟨q, hqt, hne, hle⟩

/-- A key tracked by the oldest-tracking fold is either the incoming
accumulator key or the key of some non-current entry of the list. -/
theorem oldestFold_mem (job_id : List Nat) (l : List (List Nat × StratumWork))
    (acc : Option (List Nat) × Nat) (k : List Nat)
    (h : (l.foldl (fun acc p =>
        if p.1 = job_id then acc
        else if p.2.block.nTime ≤ acc.2 then (some p.1, p.2.block.nTime) else acc)
      acc).1 = some k) :
    acc.1 = some k ∨ ∃ p ∈ l, p.1 = k ∧ p.1 ≠ job_id := by
  induction l generalizing acc with
  | nil => exact Or.inl h
  | cons p t ih =>
    simp only [List.foldl_cons] at h
    by_cases hpj : p.1 = job_id
    · rw [if_pos hpj] at h
      rcases ih _ h with hacc | ⟨q, hq, hk, hne⟩
      · exact Or.inl hacc
      · exact Or.inr ⟨q, List.mem_cons_of_mem _ hq, hk, hne⟩
    · rw [if_neg hpj] at h
      by_cases hle : p.2.block.nTime ≤ acc.2
      · rw [if_pos hle] at h
        rcases ih _ h with hacc | ⟨q, hq, hk, hne⟩
        · simp only [Option.some.injEq] at hacc
          exact Or.inr ⟨p, List.mem_cons_self _ _, hacc, hpj⟩
        · exact Or.inr ⟨q, List.mem_cons_of_mem _ hq, hk, hne⟩
      · rw [if_neg hle] at h
        rcases ih _ h with hacc | ⟨q, hq, hk, hne⟩
        · exact Or.inl hacc
        · exact Or.inr ⟨q, List.mem_cons_of_mem _ hq, hk, hne⟩

/-- C4 counterexample: on a 31-entry cache whose 30 non-current
templates all have nTime greater than the rebuild time (but well within
the 900-second window), the eviction pass removes nothing, leaving 31
entries, so the claimed 30-entry bound is false. -/
theorem c4_eviction_counterexample :
    (EvictWorkTemplates c4OverfullCache [0] 1000).length = 31
    ∧ ¬ (EvictWorkTemplates c4OverfullCache [0] 1000).length ≤ 30 := by
  constructor
  · decide
  · decide

/-- C4 (amended): after the eviction pass every retained template other
than the current job has nTime at least 900 seconds before the rebuild
time; and when the pass starts from at most 31 entries of which some
non-current one has nTime at most the rebuild time (truncated to
uint32), at most 30 entries remain.  Without such an entry (every
non-current template dated in the future), the single count-based
eviction does not fire and 31 entries can survive. -/
theorem c4_eviction_bounds (wt : List (List Nat × StratumWork))
    (job_id : List Nat) (now : Nat)
    (hlen : wt.length ≤ 31)
    (hex : ∃ p ∈ wt, p.1 ≠ job_id ∧ p.2.block.nTime ≤ now % 4294967296) :
    (EvictWorkTemplates wt job_id now).length ≤ 30
    ∧ ∀ p ∈ EvictWorkTemplates wt job_id now,
        p.1 ≠ job_id → now ≤ p.2.block.nTime + 900 := by
  constructor
  · by_cases hgt : 30 < (evictAged wt job_id now).length
    · have hle1 : (evictAged wt job_id now).length ≤ wt.length :=
        List.length_filter_le _ _
      have hall : ∀ a ∈ wt, (fun p : List Nat × StratumWork =>
          decide (p.1 ∉ evictOldIds wt job_id now)) a = true := by
        apply filter_length_eq_all
        have := List.length_filter_le
          (fun p : List Nat × StratumWork => decide (p.1 ∉ evictOldIds wt job_id now)) wt
        unfold evictAged at hgt
        omega
      obtain ⟨q, hq, hqne, hqle⟩ := hex
      have hsome := oldestFold_isSome job_id wt (none, now % 4294967296)
        (Or.inr ⟨q, hq, hqne, hqle⟩)
      obtain ⟨k, hk⟩ := Option.isSome_iff_exists.mp hsome
      have hkold : evictOldest wt job_id now = some k := hk
      rcases oldestFold_mem job_id wt (none, now % 4294967296) k hk with hacc | ⟨p0, hp0, hp0k, _⟩
      · simp at hacc
      · have hp0aged : p0 ∈ evictAged wt job_id now :=
          List.mem_filter.mpr ⟨hp0, hall p0 hp0⟩
        have hlt := length_filter_lt_of_mem
          (fun p : List Nat × StratumWork => decide (p.1 ≠ k))
          (evictAged wt job_id now) p0 hp0aged (by simp [hp0k])
        have hres : EvictWorkTemplates wt job_id now
            = (evictAged wt job_id now).filter
                (fun p : List Nat × StratumWork => decide (p.1 ≠ k)) := by
          unfold EvictWorkTemplates
          rw [if_pos hgt, hkold]
        rw [hres]
        omega
    · unfold EvictWorkTemplates
      rw [if_neg hgt]
      omega
  · intro p hp hne
    by_contra hcon
    push_neg at hcon
    have hpaged : p ∈ evictAged wt job_id now := by
      unfold EvictWorkTemplates at hp
      split at hp
      · split at hp
        · exact (List.mem_filter.mp hp).1
        · exact hp
      · exact hp
    obtain ⟨hpwt, hppass⟩ := List.mem_filter.mp hpaged
    have hpold : p.1 ∈ evictOldIds wt job_id now := by
      apply List.mem_map_of_mem Prod.fst
      apply List.mem_filter.mpr
      refine ⟨hpwt, ?_⟩
      simp only [Bool.and_eq_true, decide_eq_true_eq]
      exact ⟨hne, hcon⟩
    simp only [decide_eq_true_eq] at hppass
    exact hppass hpold

/-- C4 witness: a two-entry cache with a sufficiently old non-current
entry satisfies the hypotheses, and the pass output obeys both bounds. -/
theorem c4_eviction_bounds_witness :
    c4SmallCache.length ≤ 31
    ∧ (∃ p ∈ c4SmallCache, p.1 ≠ [0] ∧ p.2.block.nTime ≤ 100 % 4294967296)
    ∧ ((EvictWorkTemplates c4SmallCache [0] 100).length ≤ 30
        ∧ ∀ p ∈ EvictWorkTemplates c4SmallCache [0] 100,
            p.1 ≠ [0] → 100 ≤ p.2.block.nTime + 900) :=
  ⟨by decide, by decide, c4_eviction_bounds c4SmallCache [0] 100 (by decide) (by decide)⟩

/-- The submission loop realizes the spec shape: submissions are exactly
the authorized bundle entries and only the log stream consults the
auxiliary proof-of-work oracle. -/
theorem auxSubmitLoop_eq (env : ExternalEnv)
    (mmauth : List (List Nat × String × String)) (pf : AuxProof)
    (hash : List Nat) (bundle : List (List Nat × AuxWork)) :
    auxSubmitLoop env mmauth pf hash bundle
      = (specAuxSubmissions mmauth bundle pf, specAuxLogs env mmauth hash bundle) := by
  induction bundle with
  | nil => rfl
  | cons p t ih =>
    obtain ⟨chainid, auxwork⟩ := p
    unfold auxSubmitLoop
    rw [ih]
    cases hl : lookupKey mmauth chainid with
    | none => simp [specAuxSubmissions, specAuxLogs, hl]
    | some up => simp [specAuxSubmissions, specAuxLogs, hl]

/-- C7: whenever SubmitBlock runs for a template with witness enabled
and a block-final transaction, and the submitted merge-mining root
matches a stored bundle, it succeeds and invokes SubmitAuxChainShare
for exactly the bundle entries the session is authorized for — for
every environment, hence regardless of whether the share's hash meets
any auxiliary chain's proof-of-work target; that check only selects
the per-entry log message. -/
theorem c7_aux_submission (env : ExternalEnv) (client : StratumClient)
    (job_id mmroot : List Nat) (current_work : StratumWork)
    (extranonce2 : List Nat) (nTime nNonce nVersion : Nat)
    (ts : Nat) (bundle : List (List Nat × AuxWork))
    (hw : current_work.m_is_witness_enabled = true)
    (hb : current_work.has_block_final_tx = true)
    (hm : lookupKey client.m_mmwork mmroot = some (ts, bundle))
    (hvtx : current_work.block.vtx ≠ [])
    (hvin : (current_work.block.vtx.headD defaultTx).vin.length = 1)
    (hvout : (current_work.block.vtx.headD defaultTx).vout ≠ [])
    (he2 : extranonce2.length = 4) :
    ∃ out pf hash,
      SubmitBlock env client job_id mmroot current_work extranonce2 nTime nNonce nVersion
        = .ok out
      ∧ out.auxSubmits = specAuxSubmissions client.m_mmauth bundle pf
      ∧ out.auxLogs = specAuxLogs env client.m_mmauth hash bundle := by
  have hvin2 : (current_work.block.vtx.head?.getD defaultTx).vin.length = 1 := by
    rw [← List.headD_eq_head?]; exact hvin
  have hvout2 : ¬ (current_work.block.vtx.head?.getD defaultTx).vout = [] := by
    rw [← List.headD_eq_head?]; exact hvout
  unfold SubmitBlock
  rw [if_neg (by simp [hvtx]), if_neg (by simp [hvin2]),
      if_neg (by rw [ExtraNonce1_length, he2]; omega),
      if_neg (by simp [List.isEmpty_eq_true]; intro hc; rw [hc] at hvin2; simp at hvin2)]
  unfold SubmitBlockCore
  rw [if_neg (by simp [List.isEmpty_eq_true, hvout2])]
  simp only [hw, hb, hm, Option.isSome_some, and_true, true_and, if_true, and_self,
             Option.getD_some, auxSubmitLoop_eq]
  exact ⟨_, _, _, rfl, rfl, rfl⟩

/-- C7 witness: the concrete submission run emits exactly the one
authorized aux submission of the stored bundle. -/
theorem c7_aux_submission_witness :
    c7Work.m_is_witness_enabled = true
    ∧ c7Work.has_block_final_tx = true
    ∧ lookupKey c7Client.m_mmwork c7Root = some (5, [(c7Chain, c7Aux)])
    ∧ c7Work.block.vtx ≠ []
    ∧ (c7Work.block.vtx.headD defaultTx).vin.length = 1
    ∧ (c7Work.block.vtx.headD defaultTx).vout ≠ []
    ∧ ([0, 0, 0, 0] : List Nat).length = 4
    ∧ (∃ out pf hash,
        SubmitBlock env0 c7Client zero32 c7Root c7Work [0, 0, 0, 0] 1 2 3 = .ok out
        ∧ out.auxSubmits = specAuxSubmissions c7Client.m_mmauth [(c7Chain, c7Aux)] pf
        ∧ out.auxLogs = specAuxLogs env0 c7Client.m_mmauth hash [(c7Chain, c7Aux)]) :=
  ⟨rfl, rfl, rfl, by decide, by decide, by decide, by decide,
   c7_aux_submission env0 c7Client zero32 c7Root c7Work [0, 0, 0, 0] 1 2 3 5
     [(c7Chain, c7Aux)] rfl rfl rfl (by decide) (by decide) (by decide) (by decide)⟩

/-- The rebuild step never touches the second-stage cache or the
session's last-second-stage marker. -/
theorem rebuild_preserves (env : ExternalEnv) (st : ServerState) (c : StratumClient)
    (st2 : ServerState) (c2 : StratumClient)
    (h : rebuildIfNeeded env st c = .ok (st2, c2)) :
    st2.second_stages = st.second_stages
    ∧ c2.m_last_second_stage = c.m_last_second_stage := by
  unfold rebuildIfNeeded at h
  split at h
  · split at h
    · simp at h
    · simp only [Except.ok.injEq, Prod.mk.injEq] at h
      obtain ⟨h1, h2⟩ := h
      subst h1
      subst h2
      exact ⟨rfl, rfl⟩
  · simp only [Except.ok.injEq, Prod.mk.injEq] at h
    obtain ⟨h1, h2⟩ := h
    subst h1
    subst h2
    exact ⟨rfl, rfl⟩

/-- The merge-mining step never touches the session's last-second-stage
marker. -/
theorem primaryMMStep_client (env : ExternalEnv) (client0 : StratumClient)
    (bf0 : CMutableTransaction) (hasbf : Bool)
    (q : StratumClient × CMutableTransaction × Bool × List Nat)
    (h : primaryMMStep env client0 bf0 hasbf = .ok q) :
    q.1.m_last_second_stage = client0.m_last_second_stage := by
  unfold primaryMMStep at h
  split at h
  · split at h
    · cases h
      rfl
    · split at h
      · simp at h
      · cases h
        split <;> rfl
  · cases h
    rfl

/-- The primary assembly tail returns the server state unchanged and
never touches the session's last-second-stage marker, in normal returns
and throws alike. -/
theorem primary_preserves (env : ExternalEnv) (st : ServerState) (c : StratumClient)
    (w : StratumWork) :
    (resultState (primaryAssemble env st c w)).1 = st
    ∧ (resultState (primaryAssemble env st c w)).2.m_last_second_stage
        = c.m_last_second_stage := by
  unfold primaryAssemble
  split
  · exact ⟨rfl, rfl⟩
  · rename_i q heq
    split
    · exact ⟨rfl, primaryMMStep_client env c _ _ q heq⟩
    · exact ⟨rfl, primaryMMStep_client env c _ _ q heq⟩

/-- With an empty second-stage cache, every well-formed mining.submit
naming a second-stage identifier takes the unknown-job fast path:
result false and the send-work flag raised. -/
theorem submit_unknown_second_stage (env : ExternalEnv) (st : ServerState)
    (c : StratumClient) (params : List JVal) (id : String) (en2 : List Nat)
    (t n : Nat)
    (hempty : st.second_stages = [])
    (hcnt : params.length = 5 ∨ params.length = 6)
    (hid : uniAt params 1 = .str id)
    (hcolon : firstIsColon id = true)
    (he2 : ParseHexV (uniAt params 2) "extranonce2" = .ok en2)
    (hl4 : en2.length = 4)
    (ht : ParseHexInt4 (uniAt params 3) "nTime" = .ok t)
    (hn : ParseHexInt4 (uniAt params 4) "nNonce" = .ok n) :
    stratum_mining_submit env st c params
      = .ok (.bool false, { c with m_send_work := true }) := by
  have hbp : BoundParams "mining.submit" params 5 6 = .ok () := by
    unfold BoundParams
    rcases hcnt with h | h <;> rw [h] <;> rfl
  unfold stratum_mining_submit
  rw [hid]
  simp only [hbp, getStr, he2, hl4, ht, hn, hcolon, hempty, lookupKey, ne_eq,
             not_true_eq_false, if_false, ite_true, ite_false, if_true]

/-- C10: whenever GetWorkUnit gets past its preconditions and
GetSecondStageWork returns no bundle, the run (normal or thrown) leaves
the global second-stage cache empty and the session's last-second-stage
marker cleared, and every subsequent well-formed mining.submit naming
any second-stage identifier takes the unknown-job path, returning false
with the send-work flag raised. -/
theorem c10_second_stage_clear (env : ExternalEnv) (st : ServerState)
    (client : StratumClient)
    (hconn : ¬(env.vNodesEmpty ∧ ¬env.mineBlocksOnDemand))
    (hibd : env.isInitialBlockDownload = false)
    (hauth : client.m_authorized = true)
    (hss : env.GetSecondStageWork (client.m_last_second_stage.map Prod.fst) = none) :
    (resultState (GetWorkUnit env st client)).1.second_stages = []
    ∧ (resultState (GetWorkUnit env st client)).2.m_last_second_stage = none
    ∧ ∀ (env2 : ExternalEnv) (c2 : StratumClient) (params : List JVal) (id : String)
        (en2 : List Nat) (t n : Nat),
        params.length = 5 ∨ params.length = 6 →
        uniAt params 1 = .str id →
        firstIsColon id = true →
        ParseHexV (uniAt params 2) "extranonce2" = .ok en2 →
        en2.length = 4 →
        ParseHexInt4 (uniAt params 3) "nTime" = .ok t →
        ParseHexInt4 (uniAt params 4) "nNonce" = .ok n →
        stratum_mining_submit env2 (resultState (GetWorkUnit env st client)).1 c2 params
          = .ok (.bool false, { c2 with m_send_work := true }) := by
  have hstate : (resultState (GetWorkUnit env st client)).1.second_stages = []
      ∧ (resultState (GetWorkUnit env st client)).2.m_last_second_stage = none := by
    unfold GetWorkUnit
    rw [if_neg hconn, if_neg (by simp [hibd]), if_neg (by simp [hauth]), hss]
    split
    · rename_i ss heq2
      simp at heq2
    · split
      · simp [resultState]
      · rename_i st2 c2 heq
        have hpres := rebuild_preserves env _ _ st2 c2 heq
        have hprim := primary_preserves env st2 c2
          ((lookupKey st2.work_templates st2.job_id).getD defaultWork)
        rw [hprim.1, hprim.2, hpres.1, hpres.2]
        exact ⟨rfl, rfl⟩
  refine ⟨hstate.1, hstate.2, ?_⟩
  intro env2 c2 params id en2 t n hcnt hid hcolon he2 hl4 ht hn
  exact submit_unknown_second_stage env2 _ c2 params id en2 t n hstate.1
    hcnt hid hcolon he2 hl4 ht hn

/-- C10 witness: with the inert environment (whose second-stage source
returns nothing), running GetWorkUnit from a state that still holds a
second-stage job clears it, and the submit consequence holds. -/
theorem c10_second_stage_clear_witness :
    (¬(env0.vNodesEmpty ∧ ¬env0.mineBlocksOnDemand))
    ∧ env0.isInitialBlockDownload = false
    ∧ baseClient.m_authorized = true
    ∧ env0.GetSecondStageWork (baseClient.m_last_second_stage.map Prod.fst) = none
    ∧ ((resultState (GetWorkUnit env0 c10State baseClient)).1.second_stages = []
       ∧ (resultState (GetWorkUnit env0 c10State baseClient)).2.m_last_second_stage = none
       ∧ ∀ (env2 : ExternalEnv) (c2 : StratumClient) (params : List JVal) (id : String)
           (en2 : List Nat) (t n : Nat),
           params.length = 5 ∨ params.length = 6 →
           uniAt params 1 = .str id →
           firstIsColon id = true →
           ParseHexV (uniAt params 2) "extranonce2" = .ok en2 →
           en2.length = 4 →
           ParseHexInt4 (uniAt params 3) "nTime" = .ok t →
           ParseHexInt4 (uniAt params 4) "nNonce" = .ok n →
           stratum_mining_submit env2 (resultState (GetWorkUnit env0 c10State baseClient)).1
             c2 params = .ok (.bool false, { c2 with m_send_work := true })) :=
  ⟨by decide, rfl, rfl, rfl,
   c10_second_stage_clear env0 c10State baseClient (by decide) rfl rfl rfl⟩

/-- C3 witness: submitting an unknown (all-zero) primary job identifier
against the empty cache returns false and sets the send-work flag. -/
theorem c3_submit_result_witness :
    uniAt submitParams0 1 = .str jobIdHex0
    ∧ stratum_mining_submit env0 emptyState baseClient submitParams0
        = .ok (.bool false, { baseClient with m_send_work := true })
    ∧ (JVal.bool false = .bool (submitJobKnown emptyState jobIdHex0)
        ∧ (submitJobKnown emptyState jobIdHex0 = false →
            ({ baseClient with m_send_work := true } : StratumClient)
              = { baseClient with m_send_work := true })) :=
  ⟨rfl, rfl, c3_submit_result env0 emptyState baseClient submitParams0 jobIdHex0 rfl rfl⟩

end Mergemine
